import Mathlib

/-!
# Verification of the trading-mcp scraping / scoring core

Shallow embedding of the numeric pipeline of the repository:

* the loose numeric parsers (`parseNumber` in `src/adapters/barchart.ts`,
  `parseTransactionValue` / `parseTransactionDate` in `src/tools/insider.ts`),
* the put/call page parser pipeline of `src/adapters/barchart.ts`
  (post-HTML-extraction: consolidation of totals, per-expiration table rows,
  synthetic "Overall" row, sentiment analysis, validation),
* the financial-health scoring of `src/tools/fundamentals.ts`,
* the insider-sentiment computation of `src/tools/insider.ts`.

JavaScript `number` values are modelled as `ℚ` (exact arithmetic over the
decimal literals the code manipulates); `NaN` results of parsing are
modelled as `Option.none`.  String formatting (`toFixed`, decimal rendering)
is modelled character by character.
-/

/-! ## Characters, digit strings -/

/-- The character test of the regex class `\d` / `[0-9]` (ASCII `48`–`57`). -/
def isDigitCh (c : Char) : Bool := 48 ≤ c.toNat && c.toNat ≤ 57

/-- Numeric value of a digit character. -/
def digitVal (c : Char) : ℕ := c.toNat - 48

/-- Digit character for a value `0`–`9`. -/
def digitChar : ℕ → Char
  | 0 => '0' | 1 => '1' | 2 => '2' | 3 => '3' | 4 => '4'
  | 5 => '5' | 6 => '6' | 7 => '7' | 8 => '8' | _ => '9'

/-- Decimal digits of a natural number, most significant first
(the rendering used by JavaScript for integral numbers). -/
def natChars (n : ℕ) : List Char :=
  if h : n < 10 then [digitChar n]
  else natChars (n / 10) ++ [digitChar (n % 10)]
  termination_by n
  decreasing_by exact Nat.div_lt_self (by omega) (by omega)

/-- Value of a digit string read left to right (base 10). -/
def digitsVal (l : List Char) : ℕ := l.foldl (fun a c => 10 * a + digitVal c) 0

/-- Left-pad `natChars v` with `'0'` to width `k` (fractional part rendering). -/
def natCharsPad (k v : ℕ) : List Char :=
  List.replicate (k - (natChars v).length) '0' ++ natChars v

/-- The whitespace test used when skipping leading whitespace in
JavaScript's `parseFloat` (ASCII whitespace; the full Unicode class is
not needed by any string this development evaluates). -/
def isWsCh (c : Char) : Bool := c = ' ' || c = '\t' || c = '\n' || c = '\r'

/-! ## Substring search (JS `String.prototype.includes`, regex `.test`) -/

/-- Test whether `pat` is a leading segment of `s`. -/
def leadMatch : List Char → List Char → Bool
  | [], _ => true
  | _ :: _, [] => false
  | a :: p, b :: t => a = b && leadMatch p t

/-- Test whether `pat` occurs contiguously somewhere in `s`
(JavaScript `s.includes(pat)`). -/
def isSubB (pat : List Char) : List Char → Bool
  | [] => pat.isEmpty
  | c :: t => leadMatch pat (c :: t) || isSubB pat t

/-- String-level contiguous-substring test. -/
def strContains (pat s : String) : Bool := isSubB pat.data s.data

/-! ## The JavaScript `parseFloat` primitive

`parseFloat(text)` skips leading whitespace, then parses the longest prefix
of the form `[+-]? (Digits ['.' Digits?] | '.' Digits) [('e'|'E') [+-]? Digits]`
and returns its value, or `NaN` (modelled `none`) if no such prefix exists.
(`Infinity` literals cannot be produced by any caller in this development —
every string reaching `parseFloat` here is pre-filtered or numeric — and are
modelled as unparseable.) -/

/-- Optional leading sign; returns the sign as `ℚ` and the rest. -/
def signSplit (cs : List Char) : ℚ × List Char :=
  match cs with
  | [] => (1, [])
  | c :: t =>
    if c = '-' then (-1, t)
    else if c = '+' then (1, t)
    else (1, c :: t)

/-- Value of an exponent suffix `('e'|'E') [+-]? Digits` (`0` when absent —
an incomplete exponent suffix is not part of the parsed number). -/
def expOf : List Char → ℤ
  | c :: t =>
    if c = 'e' ∨ c = 'E' then
      match t with
      | '-' :: u => if (u.takeWhile isDigitCh).isEmpty then 0
                    else -(digitsVal (u.takeWhile isDigitCh) : ℤ)
      | '+' :: u => if (u.takeWhile isDigitCh).isEmpty then 0
                    else (digitsVal (u.takeWhile isDigitCh) : ℤ)
      | u => if (u.takeWhile isDigitCh).isEmpty then 0
             else (digitsVal (u.takeWhile isDigitCh) : ℤ)
    else 0
  | [] => 0

/-- JavaScript `parseFloat`, producing `none` for `NaN`. -/
def jsParseFloat (s : String) : Option ℚ :=
  let cs := s.data.dropWhile isWsCh
  let p := signSplit cs
  let intD := p.2.takeWhile isDigitCh
  let rest1 := p.2.dropWhile isDigitCh
  let fracD := match rest1 with | '.' :: t => t.takeWhile isDigitCh | _ => ([] : List Char)
  let rest2 := match rest1 with | '.' :: t => t.dropWhile isDigitCh | _ => rest1
  if intD = [] ∧ fracD = [] then none
  else some (p.1 * ((digitsVal intD : ℚ) + (digitsVal fracD : ℚ) / 10 ^ fracD.length)
               * 10 ^ expOf rest2)

/-! ## Number formatting (`Number.prototype.toFixed`, `String(number)`) -/

/-- JavaScript `x.toFixed(k)`: round to `k` decimal places (nearest, ties toward `+∞`,
per ECMAScript) and render with exactly `k` fractional digits. -/
def toFixedQ (k : ℕ) (x : ℚ) : String :=
  let n : ℤ := ⌊x * 10 ^ k + 1 / 2⌋
  let m : ℕ := n.natAbs
  if k = 0 then ⟨(if n < 0 then ['-'] else []) ++ natChars m⟩
  else ⟨(if n < 0 then ['-'] else []) ++ natChars (m / 10 ^ k) ++
        '.' :: natCharsPad k (m % 10 ^ k)⟩

/-- Abbreviation for `toFixedQ 2`, used by the sentiment / validation insight strings. -/
def toFixed2 (x : ℚ) : String := toFixedQ 2 x

/-- Abbreviation for `toFixedQ 1`, used by the insider-sentiment insight strings. -/
def toFixed1 (x : ℚ) : String := toFixedQ 1 x

/-- Least `k ≤ q.den` with `q.den ∣ 10 ^ k` (`0` if none): the number of
fractional digits of the plain decimal rendering of `q`. -/
def decExp (q : ℚ) : ℕ :=
  (((List.range (q.den + 1)).filter fun k => decide (q.den ∣ 10 ^ k)).headD 0)

/-- Plain decimal rendering of a rational whose denominator divides a power
of ten — the string `String(x)` JavaScript produces for such a number
(exponent notation, used by JS only outside `[1e-6, 1e21)`, is not modelled). -/
def decRender (q : ℚ) : String :=
  let k := decExp q
  let n : ℤ := q.num * ((10 ^ k / q.den : ℕ) : ℤ)
  let m : ℕ := n.natAbs
  if k = 0 then ⟨(if q.num < 0 then ['-'] else []) ++ natChars m⟩
  else ⟨(if q.num < 0 then ['-'] else []) ++ natChars (m / 10 ^ k) ++
        '.' :: natCharsPad k (m % 10 ^ k)⟩

/-! ## `parseNumber` (src/adapters/barchart.ts lines 304–312) -/

/-- The character class kept by `parseNumber`'s cleaning step
(`value.replace(/[^0-9.-]/g, '')`). -/
def numFilterChar (c : Char) : Bool := isDigitCh c || c = '.' || c = '-'

/-- The source's `parseNumber(value)`: strip every character except digits, `.` and `-`;
`parseFloat` the result; `0` on `NaN` (and on a falsy input, i.e. the
empty string). -/
def parseNumber (value : String) : ℚ :=
  if value.data.isEmpty then 0
  else
    match jsParseFloat ⟨value.data.filter numFilterChar⟩ with
    | none => 0
    | some q => q

/-- Recognizer for "already-clean" numeric strings:
`'-'? Digits ('.' Digits)?` with at least one integer digit. -/
def cleanNumB (s : String) : Bool :=
  let cs1 := if s.data.headD 'x' = '-' then s.data.tail else s.data
  let ds := cs1.takeWhile isDigitCh
  let r := cs1.dropWhile isDigitCh
  !ds.isEmpty &&
    (r.isEmpty || (r.headD 'x' = '.' && !r.tail.isEmpty && r.tail.all isDigitCh))

/-! ## `parseTransactionValue` (src/tools/insider.ts lines 248–258) -/

/-- The cleaning step `valueStr.replace(/[$,\s]/g, '')`. -/
def cleanedTxValue (s : String) : List Char :=
  s.data.filter fun c => !(c = '$' || c = ',' || isWsCh c)

/-- Accounting-notation negativity: the cleaned string contains `-` or `(`. -/
def accountingNeg (s : String) : Bool :=
  (cleanedTxValue s).contains '-' || (cleanedTxValue s).contains '('

/-- The source's `parseTransactionValue(valueStr)`: strip `$`, commas and whitespace;
treat a `-` or `(` anywhere as a negative sign; strip `-`, `(`, `)`;
`parseFloat`; `0` on `NaN`, else the absolute value with the sign applied. -/
def parseTransactionValue (valueStr : String) : ℚ :=
  let cleaned := cleanedTxValue valueStr
  let numStr := cleaned.filter fun c => !(c = '-' || c = '(' || c = ')')
  match jsParseFloat ⟨numStr⟩ with
  | none => 0
  | some v => if accountingNeg valueStr then -|v| else |v|

/-! ## Put/call data model (src/types/index.ts) -/

inductive Sentiment where
  | bullish | bearish | neutral
  deriving DecidableEq, Repr

/-- One per-expiration row of the put/call ratio table. -/
structure PutCallRatioData where
  expirationDate : String
  putVolume : ℚ
  callVolume : ℚ
  putCallVolumeRatio : ℚ
  putOpenInterest : ℚ
  callOpenInterest : ℚ
  putCallOIRatio : ℚ
  totalVolume : ℚ
  totalOpenInterest : ℚ
  deriving DecidableEq, Repr

structure SentimentAnalysis where
  sentiment : Sentiment
  interpretation : String
  keyInsights : List String
  deriving DecidableEq, Repr

/-! ## `analyzePutCallSentiment` (src/adapters/barchart.ts lines 259–302)

The source pushes insights onto a mutable array; in order these are: the
volume-ratio insight (always exactly one), then an optional open-interest
insight, then an optional trend insight.  The embedding builds the same list
from three component functions. -/

/-- Sentiment from the volume ratio: `> 1.2` bearish, `< 0.8` bullish,
else neutral. -/
def volumeSentiment (volumeRatio : ℚ) : Sentiment :=
  if volumeRatio > 1.2 then .bearish
  else if volumeRatio < 0.8 then .bullish
  else .neutral

def volumeInterpretation (volumeRatio : ℚ) : String :=
  if volumeRatio > 1.2 then "High put/call volume ratio suggests bearish sentiment"
  else if volumeRatio < 0.8 then "Low put/call volume ratio suggests bullish sentiment"
  else "Put/call volume ratio is within normal range"

/-- The single volume-ratio insight string. -/
def volumeInsightStr (volumeRatio : ℚ) : String :=
  if volumeRatio > 1.2 then
    "Put/call volume ratio of " ++ toFixed2 volumeRatio ++ " indicates heavy put buying"
  else if volumeRatio < 0.8 then
    "Put/call volume ratio of " ++ toFixed2 volumeRatio ++ " indicates heavy call buying"
  else
    "Put/call volume ratio of " ++ toFixed2 volumeRatio ++ " suggests neutral sentiment"

/-- The optional open-interest insight (only when `oiRatio > 0`). -/
def oiInsightList (oiRatio : ℚ) : List String :=
  if oiRatio > 0 then
    if oiRatio > 1.5 then
      ["High put/call open interest ratio of " ++ toFixed2 oiRatio ++ " suggests hedging activity"]
    else if oiRatio < 0.5 then
      ["Low put/call open interest ratio of " ++ toFixed2 oiRatio ++ " suggests bullish positioning"]
    else []
  else []

/-- Lines 287–294: the source's `isIncreasing` is `r[0] > r[1] && r[1] > r[2]`
and `isDecreasing` is `r[0] < r[1] && r[1] < r[2]` (the page lists
expirations in descending date order). -/
def trendCore (r0 r1 r2 : ℚ) : List String :=
  if r0 > r1 ∧ r1 > r2 then
    ["Put/call ratios are increasing across recent expiration dates"]
  else if r0 < r1 ∧ r1 < r2 then
    ["Put/call ratios are decreasing across recent expiration dates"]
  else []

/-- The optional trend insight across the first three expiration rows
(lines 285–295). -/
def trendInsightList (ratiosByDate : List PutCallRatioData) : List String :=
  if ratiosByDate.length ≥ 3 then
    let recentRatios := (ratiosByDate.take 3).map fun d => d.putCallVolumeRatio
    trendCore (recentRatios.getD 0 0) (recentRatios.getD 1 0) (recentRatios.getD 2 0)
  else []

def analyzePutCallSentiment (volumeRatio oiRatio : ℚ)
    (ratiosByDate : List PutCallRatioData) : SentimentAnalysis :=
  { sentiment := volumeSentiment volumeRatio
    interpretation := volumeInterpretation volumeRatio
    keyInsights := volumeInsightStr volumeRatio ::
      (oiInsightList oiRatio ++ trendInsightList ratiosByDate) }

/-! ## `validatePutCallData` (src/adapters/barchart.ts lines 319–373) -/

/-- The record of totals handed to `validatePutCallData`. -/
structure PutCallTotals where
  totalPutVolume : ℚ
  totalCallVolume : ℚ
  volumeRatio : ℚ
  totalPutOI : ℚ
  totalCallOI : ℚ
  oiRatio : ℚ
  deriving DecidableEq, Repr

structure ValidationResult where
  isValid : Bool
  warnings : List String
  deriving DecidableEq, Repr

def validatePutCallData (data : PutCallTotals) : ValidationResult :=
  if data.totalPutVolume = 0 ∧ data.totalCallVolume = 0 ∧
     data.totalPutOI = 0 ∧ data.totalCallOI = 0 then
    { isValid := false, warnings := ["No put/call volume or open interest data found"] }
  else
    let w1 :=
      if data.totalCallVolume > 0 ∧ data.volumeRatio > 0 ∧
         |data.totalPutVolume / data.totalCallVolume - data.volumeRatio| > 0.1 then
        ["Volume ratio mismatch: extracted " ++ toFixed2 data.volumeRatio ++
         ", calculated " ++ toFixed2 (data.totalPutVolume / data.totalCallVolume)]
      else []
    let w2 :=
      if data.totalCallOI > 0 ∧ data.oiRatio > 0 ∧
         |data.totalPutOI / data.totalCallOI - data.oiRatio| > 0.1 then
        ["OI ratio mismatch: extracted " ++ toFixed2 data.oiRatio ++
         ", calculated " ++ toFixed2 (data.totalPutOI / data.totalCallOI)]
      else []
    let w3 :=
      if data.volumeRatio > 10 then
        ["Unusually high put/call volume ratio: " ++ toFixed2 data.volumeRatio]
      else []
    let w4 :=
      if data.oiRatio > 5 then
        ["Unusually high put/call OI ratio: " ++ toFixed2 data.oiRatio]
      else []
    let w5 :=
      if (data.totalPutVolume > 0 ∨ data.totalCallVolume > 0) ∧ data.volumeRatio = 0 then
        ["Volume data found but ratio not extracted - calculating from volumes"]
      else []
    let w6 :=
      if (data.totalPutOI > 0 ∨ data.totalCallOI > 0) ∧ data.oiRatio = 0 then
        ["Open interest data found but ratio not extracted - calculating from totals"]
      else []
    { isValid := true, warnings := w1 ++ w2 ++ w3 ++ w4 ++ w5 ++ w6 }

/-! ## `parsePutCallRatioData` (src/adapters/barchart.ts lines 36–257)

The HTML-extraction stage (cheerio selectors / whole-page regex fallback)
produces six summary totals and a list of table rows, each a list of cell
text strings.  The embedding starts from those extracted values and models
the numeric pipeline that follows exactly: ratio back-filling (lines
136–144), per-row parsing (lines 165–198), the synthetic "Overall" row
(lines 200–213), the final totals (lines 216–222), sentiment analysis and
validation (lines 233–242), and the assembled result (lines 244–256). -/

/-- Summary totals produced by the structured-block / regex extraction stage. -/
structure ExtractedTotals where
  putVolume : ℚ
  callVolume : ℚ
  volumeRatio : ℚ
  putOI : ℚ
  callOI : ℚ
  oiRatio : ℚ
  deriving DecidableEq, Repr

/-- Consume exactly `k` digit characters, returning the rest. -/
def dRun : ℕ → List Char → Option (List Char)
  | 0, cs => some cs
  | _ + 1, [] => none
  | k + 1, c :: t => if isDigitCh c then dRun k t else none

/-- A match of `\d{1,2}\/\d{1,2}\/\d{4}` starting at this position. -/
def slashDateAt (cs : List Char) : Bool :=
  let seg (a b : ℕ) : Bool :=
    match dRun a cs with
    | some ('/' :: r1) =>
      match dRun b r1 with
      | some ('/' :: r2) => (dRun 4 r2).isSome
      | _ => false
    | _ => false
  seg 1 1 || seg 1 2 || seg 2 1 || seg 2 2

/-- A match of `\d{4}-\d{2}-\d{2}` starting at this position. -/
def isoDateAt (cs : List Char) : Bool :=
  match dRun 4 cs with
  | some ('-' :: r1) =>
    match dRun 2 r1 with
    | some ('-' :: r2) => (dRun 2 r2).isSome
    | _ => false
  | _ => false

/-- A case-insensitive month abbreviation starting at this position. -/
def monthAt (cs : List Char) : Bool :=
  match cs with
  | a :: b :: c :: _ =>
    [a.toLower, b.toLower, c.toLower] ∈
      [['j','a','n'], ['f','e','b'], ['m','a','r'], ['a','p','r'],
       ['m','a','y'], ['j','u','n'], ['j','u','l'], ['a','u','g'],
       ['s','e','p'], ['o','c','t'], ['n','o','v'], ['d','e','c']]
  | _ => false

def dateRowScan : List Char → Bool
  | [] => false
  | c :: t => slashDateAt (c :: t) || isoDateAt (c :: t) || monthAt (c :: t) || dateRowScan t

/-- The test
`/\d{1,2}\/\d{1,2}\/\d{4}|\d{4}-\d{2}-\d{2}|Jan|Feb|...|Dec/i.test(firstCell)`
(line 172). -/
def isDateRow (s : String) : Bool := dateRowScan s.data

/-- Line 178: the row's volume ratio is the parsed ratio cell when nonzero
(JS `||`), else computed from the two volumes. -/
def rowVolumeRatio (putVolume callVolume p3 : ℚ) : ℚ :=
  if p3 ≠ 0 then p3
  else if callVolume > 0 then putVolume / callVolume else 0

/-- Line 181: the row's open-interest ratio, from the optional 7th cell. -/
def rowOIRatio (putOI callOI : ℚ) (len : ℕ) (p6 : ℚ) : ℚ :=
  if len > 6 then
    if p6 ≠ 0 then p6
    else if callOI > 0 then putOI / callOI else 0
  else if callOI > 0 then putOI / callOI else 0

/-- Lines 166–196: build a `PutCallRatioData` from one table row's cell
texts, or nothing if the row is not a usable date row. -/
def rowFromCells (cellTexts : List String) : Option PutCallRatioData :=
  if cellTexts.length ≥ 3 then
    let firstCell := cellTexts.getD 0 ""
    if isDateRow firstCell ∧ cellTexts.length ≥ 6 then
      let putVolume := parseNumber (cellTexts.getD 1 "")
      let callVolume := parseNumber (cellTexts.getD 2 "")
      let putOI := parseNumber (cellTexts.getD 4 "")
      let callOI := parseNumber (cellTexts.getD 5 "")
      if ¬firstCell.isEmpty ∧ (putVolume > 0 ∨ callVolume > 0) then
        some { expirationDate := firstCell
               putVolume := putVolume
               callVolume := callVolume
               putCallVolumeRatio :=
                 rowVolumeRatio putVolume callVolume (parseNumber (cellTexts.getD 3 ""))
               putOpenInterest := putOI
               callOpenInterest := callOI
               putCallOIRatio :=
                 rowOIRatio putOI callOI cellTexts.length (parseNumber (cellTexts.getD 6 ""))
               totalVolume := putVolume + callVolume
               totalOpenInterest := putOI + callOI }
      else none
    else none
  else none

/-- The per-expiration rows extracted from the table (lines 165–198). -/
def rowsFromCells (cells : List (List String)) : List PutCallRatioData :=
  cells.filterMap rowFromCells

/-- Lines 136–139: back-fill the overall volume ratio from the totals. -/
def adjVolumeRatio (t : ExtractedTotals) : ℚ :=
  if t.volumeRatio = 0 ∧ t.callVolume > 0 then t.putVolume / t.callVolume else t.volumeRatio

/-- Lines 141–144: back-fill the overall OI ratio from the totals. -/
def adjOIRatio (t : ExtractedTotals) : ℚ :=
  if t.oiRatio = 0 ∧ t.callOI > 0 then t.putOI / t.callOI else t.oiRatio

/-- Lines 202–212: the synthetic summary row. -/
def syntheticOverallRow (t : ExtractedTotals) : PutCallRatioData :=
  { expirationDate := "Overall"
    putVolume := t.putVolume
    callVolume := t.callVolume
    putCallVolumeRatio := adjVolumeRatio t
    putOpenInterest := t.putOI
    callOpenInterest := t.callOI
    putCallOIRatio := adjOIRatio t
    totalVolume := t.putVolume + t.callVolume
    totalOpenInterest := t.putOI + t.callOI }

/-- Lines 200–213: append the synthetic "Overall" row when no detailed rows
were parsed but volume totals (or an extracted volume ratio) exist.  Note the
condition does not look at open-interest totals. -/
def finalRows (t : ExtractedTotals) (rows0 : List PutCallRatioData) :
    List PutCallRatioData :=
  if rows0 = [] ∧ (t.putVolume > 0 ∨ t.callVolume > 0 ∨ adjVolumeRatio t > 0) then
    [syntheticOverallRow t]
  else rows0

structure PutCallRatioAnalysis where
  ticker : String
  overallPutCallVolumeRatio : ℚ
  overallPutCallOIRatio : ℚ
  totalPutVolume : ℚ
  totalCallVolume : ℚ
  totalPutOI : ℚ
  totalCallOI : ℚ
  ratiosByDate : List PutCallRatioData
  analysis : SentimentAnalysis
  validationResult : ValidationResult
  deriving DecidableEq, Repr

/-- The parser pipeline from the extracted summary totals and table cell
texts to the returned `PutCallRatioAnalysis` (lines 135–256). -/
def mkAnalysis (ticker : String) (t : ExtractedTotals)
    (cells : List (List String)) : PutCallRatioAnalysis :=
  let rows := finalRows t (rowsFromCells cells)
  let finalTotalPutVolume :=
    if t.putVolume > 0 then t.putVolume else (rows.map fun d => d.putVolume).sum
  let finalTotalCallVolume :=
    if t.callVolume > 0 then t.callVolume else (rows.map fun d => d.callVolume).sum
  let finalTotalPutOI :=
    if t.putOI > 0 then t.putOI else (rows.map fun d => d.putOpenInterest).sum
  let finalTotalCallOI :=
    if t.callOI > 0 then t.callOI else (rows.map fun d => d.callOpenInterest).sum
  let finalVolumeRatio :=
    if adjVolumeRatio t > 0 then adjVolumeRatio t
    else if finalTotalCallVolume > 0 then finalTotalPutVolume / finalTotalCallVolume else 0
  let finalOIRatio :=
    if adjOIRatio t > 0 then adjOIRatio t
    else if finalTotalCallOI > 0 then finalTotalPutOI / finalTotalCallOI else 0
  { ticker := ticker.toUpper
    overallPutCallVolumeRatio := finalVolumeRatio
    overallPutCallOIRatio := finalOIRatio
    totalPutVolume := finalTotalPutVolume
    totalCallVolume := finalTotalCallVolume
    totalPutOI := finalTotalPutOI
    totalCallOI := finalTotalCallOI
    ratiosByDate := rows
    analysis := analyzePutCallSentiment finalVolumeRatio finalOIRatio rows
    validationResult := validatePutCallData
      { totalPutVolume := finalTotalPutVolume
        totalCallVolume := finalTotalCallVolume
        volumeRatio := finalVolumeRatio
        totalPutOI := finalTotalPutOI
        totalCallOI := finalTotalCallOI
        oiRatio := finalOIRatio } }

/-! ## `calculateHealthScore` (src/tools/fundamentals.ts lines 205–337)

Metric fields are optional display strings (absent, or e.g. `"10%"`,
`"-"`, `"2.1"`).  A field is used only when it is truthy (present and
non-empty) and parses to a number.  Only the fields the health score reads
are modelled. -/

structure FundamentalMetrics where
  profitMargin : Option String := none
  returnOnEquity : Option String := none
  currentRatio : Option String := none
  debtToEquity : Option String := none
  pe : Option String := none
  epsGrowth : Option String := none
  deriving DecidableEq, Repr

/-- Model of `s.replace('%', '')`: remove the first `'%'` occurrence. -/
def removeFirst (c : Char) : List Char → List Char
  | [] => []
  | a :: t => if a = c then t else a :: removeFirst c t

def replacePercentOnce (s : String) : String := ⟨removeFirst '%' s.data⟩

/-- Truthiness-plus-parse of a metric field (with optional `%` stripping),
`none` when the branch guarding the metric is not entered. -/
def metricValue (stripPct : Bool) : Option String → Option ℚ
  | none => none
  | some s =>
    if s.isEmpty then none
    else jsParseFloat (if stripPct then replacePercentOnce s else s)

/-- Lines 217–233: profitability from profit margin and ROE. -/
def profitabilityScore (f : FundamentalMetrics) : ℚ :=
  let s1 :=
    match metricValue true f.profitMargin with
    | some margin => min 100 (max 0 (50 + margin * 2))
    | none => 50
  match metricValue true f.returnOnEquity with
  | some roe => (s1 + min 100 (max 0 (50 + roe * 3))) / 2
  | none => s1

/-- Lines 236–253: liquidity from the current ratio. -/
def liquidityScore (f : FundamentalMetrics) : ℚ :=
  match metricValue false f.currentRatio with
  | some ratio =>
    if 1.5 ≤ ratio ∧ ratio ≤ 3 then 90
    else if 1 ≤ ratio ∧ ratio < 1.5 then 70
    else if ratio > 3 then 60
    else 20
  | none => 50

/-- Lines 256–273: leverage from debt/equity. -/
def leverageScore (f : FundamentalMetrics) : ℚ :=
  match metricValue false f.debtToEquity with
  | some debtToEquity =>
    if debtToEquity ≤ 0.3 then 90
    else if debtToEquity ≤ 0.6 then 70
    else if debtToEquity ≤ 1.0 then 50
    else max 10 (50 - (debtToEquity - 1) * 20)
  | none => 50

/-- Lines 276–295: efficiency from P/E (positive values only). -/
def efficiencyScore (f : FundamentalMetrics) : ℚ :=
  match metricValue false f.pe with
  | some pe =>
    if pe > 0 then
      if 10 ≤ pe ∧ pe ≤ 20 then 80
      else if 5 ≤ pe ∧ pe < 10 then 70
      else if pe > 20 ∧ pe ≤ 30 then 60
      else if pe > 30 then max 20 (60 - (pe - 30))
      else 30
    else 50
  | none => 50

/-- Lines 298–306: growth from EPS growth. -/
def growthScore (f : FundamentalMetrics) : ℚ :=
  match metricValue true f.epsGrowth with
  | some epsGrowth => min 100 (max 0 (50 + epsGrowth))
  | none => 50

structure HealthWeights where
  profitability : ℚ
  liquidity : ℚ
  leverage : ℚ
  efficiency : ℚ
  growth : ℚ
  deriving DecidableEq, Repr

/-- The zod defaults `0.3 / 0.2 / 0.2 / 0.15 / 0.15`. -/
def defaultWeights : HealthWeights :=
  { profitability := 0.3, liquidity := 0.2, leverage := 0.2
    efficiency := 0.15, growth := 0.15 }

/-- JavaScript `Math.round` (nearest, ties toward `+∞`). -/
def jsRound (x : ℚ) : ℤ := ⌊x + 1 / 2⌋

/-- Lines 318–322. -/
def ratingOf (overallScore : ℤ) : String :=
  if overallScore ≥ 80 then "Excellent"
  else if overallScore ≥ 70 then "Good"
  else if overallScore ≥ 60 then "Fair"
  else if overallScore ≥ 40 then "Below Average"
  else "Poor"

structure HealthScore where
  overall_score : ℤ
  rating : String
  profitability : ℚ
  liquidity : ℚ
  leverage : ℚ
  efficiency : ℚ
  growth : ℚ
  deriving DecidableEq, Repr

def calculateHealthScore (f : FundamentalMetrics) (w : HealthWeights) : HealthScore :=
  let p := profitabilityScore f
  let l := liquidityScore f
  let lev := leverageScore f
  let e := efficiencyScore f
  let g := growthScore f
  let overall := jsRound (p * w.profitability + l * w.liquidity + lev * w.leverage +
                          e * w.efficiency + g * w.growth)
  { overall_score := overall
    rating := ratingOf overall
    profitability := p
    liquidity := l
    leverage := lev
    efficiency := e
    growth := g }

/-! ## Insider transactions (src/tools/insider.ts)

Dates are modelled as proleptic-Gregorian day numbers (`ℤ`, day 0 =
1970-01-01), the granularity at which the code compares them; "now"
(`new Date()` in the source) is an explicit parameter. -/

structure InsiderTransaction where
  insider : String
  relationship : String
  date : String
  transactionType : String
  cost : String
  shares : String
  value : String
  sharesTotal : String
  deriving DecidableEq, Repr

/-- Day number of a civil date (Gregorian, `m ∈ [1,12]` after
normalization; day 0 = 1970-01-01). -/
def daysFromCivil (y m d : ℤ) : ℤ :=
  let y' := if m ≤ 2 then y - 1 else y
  let era := y' / 400
  let yoe := y' - era * 400
  let mp := (m + 9) % 12
  let doy := (153 * mp + 2) / 5 + d - 1
  let doe := yoe * 365 + yoe / 4 - yoe / 100 + doy
  era * 146097 + doe - 719468

/-- JavaScript `new Date(year, month, day).` with 0-indexed month and
rollover of out-of-range months and days. -/
def jsMakeDate (year month day : ℤ) : ℤ :=
  daysFromCivil (year + Int.fdiv month 12) (Int.fmod month 12 + 1) 1 + (day - 1)

/-- Consume exactly `k` digit characters, returning them and the rest. -/
def takeD : ℕ → List Char → Option (List Char × List Char)
  | 0, cs => some ([], cs)
  | _ + 1, [] => none
  | k + 1, c :: t =>
    if isDigitCh c then (takeD k t).map fun p => (c :: p.1, p.2) else none

/-- One backtracking alternative of `(\d{1,2})\/(\d{1,2})\/(\d{2,4})` with
capture widths `a`, `b`, `c`. -/
def capSlashSeg (a b c : ℕ) (cs : List Char) : Option (ℕ × ℕ × ℕ) :=
  match takeD a cs with
  | some (d1, '/' :: r1) =>
    match takeD b r1 with
    | some (d2, '/' :: r2) =>
      match takeD c r2 with
      | some (d3, _) => some (digitsVal d1, digitsVal d2, digitsVal d3)
      | none => none
    | _ => none
  | _ => none

/-- Captures of `(\d{1,2})\/(\d{1,2})\/(\d{2,4})` at this position, trying
widths in the greedy backtracking order of the regex engine. -/
def capSlashAt (cs : List Char) : Option (ℕ × ℕ × ℕ) :=
  capSlashSeg 2 2 4 cs <|> capSlashSeg 2 2 3 cs <|> capSlashSeg 2 2 2 cs <|>
  capSlashSeg 2 1 4 cs <|> capSlashSeg 2 1 3 cs <|> capSlashSeg 2 1 2 cs <|>
  capSlashSeg 1 2 4 cs <|> capSlashSeg 1 2 3 cs <|> capSlashSeg 1 2 2 cs <|>
  capSlashSeg 1 1 4 cs <|> capSlashSeg 1 1 3 cs <|> capSlashSeg 1 1 2 cs

def scanSlash : List Char → Option (ℕ × ℕ × ℕ)
  | [] => none
  | c :: t => capSlashAt (c :: t) <|> scanSlash t

/-- One backtracking alternative of `(\d{4})-(\d{1,2})-(\d{1,2})`. -/
def capIsoSeg (b c : ℕ) (cs : List Char) : Option (ℕ × ℕ × ℕ) :=
  match takeD 4 cs with
  | some (d1, '-' :: r1) =>
    match takeD b r1 with
    | some (d2, '-' :: r2) =>
      match takeD c r2 with
      | some (d3, _) => some (digitsVal d1, digitsVal d2, digitsVal d3)
      | none => none
    | _ => none
  | _ => none

def capIsoAt (cs : List Char) : Option (ℕ × ℕ × ℕ) :=
  capIsoSeg 2 2 cs <|> capIsoSeg 2 1 cs <|> capIsoSeg 1 2 cs <|> capIsoSeg 1 1 cs

def scanIso : List Char → Option (ℕ × ℕ × ℕ)
  | [] => none
  | c :: t => capIsoAt (c :: t) <|> scanIso t

/-- The source's `parseTransactionDate(dateStr)` (lines 216–246): try `MM/DD/YY(YY)`
(two-digit years shifted to `20YY`), then `YYYY-MM-DD`, else the epoch.
(The source's final generic `new Date(dateStr)` attempt — which yields the
epoch sentinel on the `NaN` dates such strings produce — is modelled by the
epoch fallback.) -/
def parseTransactionDate (dateStr : String) : ℤ :=
  match scanSlash dateStr.data with
  | some (mo, da, yr) =>
    let year : ℤ := if yr < 100 then (yr : ℤ) + 2000 else (yr : ℤ)
    jsMakeDate year ((mo : ℤ) - 1) (da : ℤ)
  | none =>
    match scanIso dateStr.data with
    | some (yr, mo, da) => jsMakeDate (yr : ℤ) ((mo : ℤ) - 1) (da : ℤ)
    | none => 0

/-- Lines 260–263: keyword classification of buys. -/
def isBuyTransaction (type : String) : Bool :=
  ["buy", "purchase", "acquire", "exercise", "conversion"].any fun k =>
    strContains k type

/-- Lines 265–268: keyword classification of sells. -/
def isSellTransaction (type : String) : Bool :=
  ["sell", "sale", "dispose", "gift"].any fun k => strContains k type

structure InsiderTypeStats where
  buys : ℕ
  sells : ℕ
  net_value : ℚ
  deriving DecidableEq, Repr

/-- Model of `if (!insiderTypes[relationship]) insiderTypes[relationship] = ...`
(insertion-ordered object keys modelled as an association list). -/
def ensureType (k : String) (l : List (String × InsiderTypeStats)) :
    List (String × InsiderTypeStats) :=
  if l.any fun p => p.1 = k then l else l ++ [(k, ⟨0, 0, 0⟩)]

def updateType (k : String) (f : InsiderTypeStats → InsiderTypeStats)
    (l : List (String × InsiderTypeStats)) : List (String × InsiderTypeStats) :=
  l.map fun p => if p.1 = k then (p.1, f p.2) else p

def lookupType (k : String) (l : List (String × InsiderTypeStats)) :
    Option InsiderTypeStats :=
  (l.find? fun p => p.1 = k).map fun p => p.2

/-- Accumulator of the `relevantTransactions.forEach` loop (lines 133–161). -/
structure ClassifyState where
  buyTransactions : List InsiderTransaction
  sellTransactions : List InsiderTransaction
  totalBuyValue : ℚ
  totalSellValue : ℚ
  insiderTypes : List (String × InsiderTypeStats)
  deriving DecidableEq, Repr

def classifyStep (st : ClassifyState) (tx : InsiderTransaction) : ClassifyState :=
  let value := parseTransactionValue tx.value
  let type := tx.transactionType.toLower
  let relationship := tx.relationship.toLower
  let types0 := ensureType relationship st.insiderTypes
  if isBuyTransaction type then
    { st with
      buyTransactions := st.buyTransactions ++ [tx]
      totalBuyValue := st.totalBuyValue + |value|
      insiderTypes := updateType relationship
        (fun s => { s with buys := s.buys + 1, net_value := s.net_value + |value| }) types0 }
  else if isSellTransaction type then
    { st with
      sellTransactions := st.sellTransactions ++ [tx]
      totalSellValue := st.totalSellValue + |value|
      insiderTypes := updateType relationship
        (fun s => { s with sells := s.sells + 1, net_value := s.net_value - |value| }) types0 }
  else { st with insiderTypes := types0 }

/-- The source's `generateInsiderInsights` (lines 270–319). -/
def generateInsiderInsights (buyTransactions sellTransactions : List InsiderTransaction)
    (totalBuyValue totalSellValue : ℚ)
    (insiderTypes : List (String × InsiderTypeStats)) : List String :=
  let netValue := totalBuyValue - totalSellValue
  let i1 :=
    if netValue > 100000 then
      ["Net insider buying of $" ++ toFixed1 (netValue / 1000000) ++
       "M indicates positive sentiment"]
    else if netValue < -100000 then
      ["Net insider selling of $" ++ toFixed1 (|netValue| / 1000000) ++
       "M may indicate profit-taking or lack of confidence"]
    else []
  let ceoActivity :=
    match lookupType "ceo" insiderTypes with
    | some a => some a
    | none => lookupType "chief executive officer" insiderTypes
  let i2 :=
    match ceoActivity with
    | some a =>
      if a.net_value > 50000 then ["CEO showing confidence with net buying activity"]
      else if a.net_value < -50000 then ["CEO has been net selling shares"]
      else []
    | none => []
  let directorNetValue :=
    ((insiderTypes.filter fun p =>
        strContains "director" p.1 || strContains "board" p.1).map
      fun p => p.2.net_value).sum
  let i3 :=
    if directorNetValue > 100000 then
      ["Board members showing confidence with net buying"]
    else []
  let i4 :=
    if buyTransactions.length > sellTransactions.length * 2 then
      ["Significantly more buy transactions than sell transactions"]
    else if sellTransactions.length > buyTransactions.length * 2 then
      ["Significantly more sell transactions than buy transactions"]
    else []
  let insights := i1 ++ i2 ++ i3 ++ i4
  if insights = [] then ["Mixed insider activity with no clear directional bias"]
  else insights

/-- The source's `getSignificantTransactions` (lines 321–326): stable sort by absolute
transaction value, descending; take the first `limit`. -/
def getSignificantTransactions (transactions : List InsiderTransaction)
    (limit : ℕ) : List InsiderTransaction :=
  (transactions.mergeSort fun a b =>
    |parseTransactionValue b.value| ≤ |parseTransactionValue a.value|).take limit

inductive Confidence where
  | high | medium | low
  deriving DecidableEq, Repr

/-- The `transaction_summary` object (`net_value` / `buy_ratio` are absent
from the zero-transaction branch's object, hence optional). -/
structure TransactionSummary where
  total_transactions : ℕ
  buy_transactions : ℕ
  sell_transactions : ℕ
  total_buy_value : ℚ
  total_sell_value : ℚ
  net_value : Option ℚ
  buy_ratio : Option ℚ
  deriving DecidableEq, Repr

structure InsiderSentimentResult where
  overall_sentiment : Sentiment
  confidence_level : Confidence
  transaction_summary : TransactionSummary
  key_insights : List String
  insider_types : List (String × InsiderTypeStats)
  recent_significant_transactions : Option (List InsiderTransaction)
  deriving DecidableEq, Repr

/-- The fixed result of the zero-qualifying-transactions branch
(lines 116–130). -/
def noActivityResult : InsiderSentimentResult :=
  { overall_sentiment := .neutral
    confidence_level := .low
    transaction_summary :=
      { total_transactions := 0, buy_transactions := 0, sell_transactions := 0
        total_buy_value := 0, total_sell_value := 0
        net_value := none, buy_ratio := none }
    key_insights := ["No significant insider transactions found in the analysis period"]
    insider_types := []
    recent_significant_transactions := none }

/-- The filter of lines 109–114: within `analysisPeriod` days of `now` and
of absolute value at least `minValue`. -/
def relevantTransactions (now : ℤ) (transactions : List InsiderTransaction)
    (analysisPeriod : ℤ) (minValue : ℚ) : List InsiderTransaction :=
  transactions.filter fun tx =>
    parseTransactionDate tx.date ≥ now - analysisPeriod ∧
    |parseTransactionValue tx.value| ≥ minValue

/-- The source's `calculateInsiderSentiment` (lines 104–214); `now` models `new Date()`. -/
def calculateInsiderSentiment (now : ℤ) (transactions : List InsiderTransaction)
    (analysisPeriod : ℤ) (minValue : ℚ) : InsiderSentimentResult :=
  let relevant := relevantTransactions now transactions analysisPeriod minValue
  if relevant = [] then noActivityResult
  else
    let st := relevant.foldl classifyStep ⟨[], [], 0, 0, []⟩
    let netValue := st.totalBuyValue - st.totalSellValue
    let totalValue := st.totalBuyValue + st.totalSellValue
    let buyRatio := if totalValue > 0 then st.totalBuyValue / totalValue else 0
    let overallSentiment : Sentiment :=
      if buyRatio ≥ 0.7 then .bullish
      else if buyRatio ≤ 0.3 then .bearish
      else .neutral
    let confidenceLevel : Confidence :=
      if relevant.length ≥ 10 ∧ totalValue ≥ 1000000 then .high
      else if relevant.length ≥ 5 ∧ totalValue ≥ 500000 then .medium
      else .low
    { overall_sentiment := overallSentiment
      confidence_level := confidenceLevel
      transaction_summary :=
        { total_transactions := relevant.length
          buy_transactions := st.buyTransactions.length
          sell_transactions := st.sellTransactions.length
          total_buy_value := st.totalBuyValue
          total_sell_value := st.totalSellValue
          net_value := some netValue
          buy_ratio := some ((jsRound (buyRatio * 100) : ℚ) / 100) }
      key_insights := generateInsiderInsights st.buyTransactions st.sellTransactions
        st.totalBuyValue st.totalSellValue st.insiderTypes
      insider_types := st.insiderTypes
      recent_significant_transactions := some (getSignificantTransactions relevant 5) }

/-!
# Theorems

## Substring-search facts
-/

theorem leadMatch_self_append (pat r : List Char) : leadMatch pat (pat ++ r) = true := by
  induction pat with
  | nil => rfl
  | cons a p ih => simpa [leadMatch] using ih

theorem isSubB_nil (s : List Char) : isSubB [] s = true := by
  cases s <;> simp [isSubB, leadMatch]

theorem isSubB_of_append (pat l r : List Char) : isSubB pat (l ++ pat ++ r) = true := by
  induction l with
  | nil =>
    cases pat with
    | nil => simpa using isSubB_nil r
    | cons a t =>
      simp only [List.nil_append, List.cons_append, isSubB, Bool.or_eq_true]
      exact Or.inl (leadMatch_self_append (a :: t) r)
  | cons b bl ih =>
    simp only [List.cons_append, isSubB, Bool.or_eq_true]
    exact Or.inr (by simpa using ih)

theorem leadMatch_exists (pat : List Char) :
    ∀ s, leadMatch pat s = true → ∃ r, s = pat ++ r := by
  induction pat with
  | nil => intro s _; exact ⟨s, rfl⟩
  | cons a p ih =>
    intro s h
    cases s with
    | nil => simp [leadMatch] at h
    | cons b t =>
      simp only [leadMatch, Bool.and_eq_true, decide_eq_true_eq] at h
      obtain ⟨rfl, h2⟩ := h
      obtain ⟨r, rfl⟩ := ih t h2
      exact ⟨r, rfl⟩

theorem isSubB_exists {pat : List Char} :
    ∀ {s}, isSubB pat s = true → ∃ l r, s = l ++ pat ++ r := by
  intro s
  induction s with
  | nil =>
    intro h
    simp only [isSubB, List.isEmpty_iff] at h
    exact ⟨[], [], by simp [h]⟩
  | cons c t ih =>
    intro h
    simp only [isSubB, Bool.or_eq_true] at h
    rcases h with h | h
    · obtain ⟨r, hr⟩ := leadMatch_exists pat (c :: t) h
      exact ⟨[], r, by simpa using hr⟩
    · obtain ⟨l, r, rfl⟩ := ih h
      exact ⟨c :: l, r, rfl⟩

/-- If `pat` occurs in `s` then every character of `pat` is a character of `s`. -/
theorem mem_of_isSubB {pat s : List Char} (h : isSubB pat s = true) {c : Char}
    (hc : c ∈ pat) : c ∈ s := by
  obtain ⟨l, r, rfl⟩ := isSubB_exists h
  simp [hc]

/-! ## Digit-string facts -/

theorem isDigitCh_digitChar (k : ℕ) : isDigitCh (digitChar k) = true := by
  unfold digitChar
  split <;> decide

theorem digitVal_digitChar {k : ℕ} (h : k < 10) : digitVal (digitChar k) = k := by
  interval_cases k <;> decide

theorem natChars_ne_nil (n : ℕ) : natChars n ≠ [] := by
  unfold natChars
  split
  · simp
  · simp

theorem natChars_all_digits (n : ℕ) : (natChars n).all isDigitCh = true := by
  induction n using Nat.strong_induction_on with
  | _ n ih =>
    unfold natChars
    split
    · simp [isDigitCh_digitChar]
    · rename_i h
      rw [List.all_append]
      simp [isDigitCh_digitChar, ih (n / 10) (Nat.div_lt_self (by omega) (by omega))]

theorem digitsVal_shift (l : List Char) :
    ∀ a : ℕ, l.foldl (fun a c => 10 * a + digitVal c) a
      = a * 10 ^ l.length + digitsVal l := by
  induction l with
  | nil => intro a; simp [digitsVal]
  | cons c t ih =>
    intro a
    simp only [List.foldl_cons, List.length_cons, digitsVal]
    rw [ih (10 * a + digitVal c), ih (10 * 0 + digitVal c)]
    ring

theorem digitsVal_append_singleton (l : List Char) (c : Char) :
    digitsVal (l ++ [c]) = 10 * digitsVal l + digitVal c := by
  unfold digitsVal
  rw [List.foldl_append]
  simp

theorem digitsVal_natChars (n : ℕ) : digitsVal (natChars n) = n := by
  induction n using Nat.strong_induction_on with
  | _ n ih =>
    unfold natChars
    split
    · rename_i h
      simp [digitsVal, digitVal_digitChar h]
    · rename_i h
      rw [digitsVal_append_singleton, ih (n / 10) (Nat.div_lt_self (by omega) (by omega)),
        digitVal_digitChar (Nat.mod_lt _ (by omega))]
      omega

theorem natChars_length_le {n k : ℕ} (hk : 1 ≤ k) (h : n < 10 ^ k) :
    (natChars n).length ≤ k := by
  induction k generalizing n with
  | zero => omega
  | succ k ih =>
    unfold natChars
    split
    · simpa using hk
    · rename_i hn
      rw [List.length_append]
      have h1 : 1 ≤ k := by
        by_contra hc
        have : k = 0 := by omega
        subst this
        simp at h
        omega
      have h2 : n / 10 < 10 ^ k := by
        rw [Nat.div_lt_iff_lt_mul (by omega)]
        calc n < 10 ^ (k + 1) := h
        _ = 10 ^ k * 10 := by ring
      have := ih h1 h2
      simp only [List.length_singleton]
      omega

theorem natCharsPad_all_digits (k n : ℕ) : (natCharsPad k n).all isDigitCh = true := by
  unfold natCharsPad
  rw [List.all_append, natChars_all_digits n, Bool.and_true]
  simp only [List.all_eq_true]
  intro c hc
  rw [List.eq_of_mem_replicate hc]
  decide

theorem natCharsPad_length {k n : ℕ} (hk : 1 ≤ k) (h : n < 10 ^ k) :
    (natCharsPad k n).length = k := by
  unfold natCharsPad
  rw [List.length_append, List.length_replicate]
  have := natChars_length_le hk h
  omega

theorem natCharsPad_ne_nil {k n : ℕ} (hk : 1 ≤ k) (h : n < 10 ^ k) :
    natCharsPad k n ≠ [] := by
  intro hc
  have := natCharsPad_length hk h
  rw [hc] at this
  simp at this
  omega

theorem digitsVal_replicate_zero (j : ℕ) :
    (List.replicate j '0').foldl (fun a c => 10 * a + digitVal c) 0 = 0 := by
  induction j with
  | zero => rfl
  | succ j ih => simpa [List.replicate_succ, digitVal] using ih

theorem digitsVal_natCharsPad (k n : ℕ) : digitsVal (natCharsPad k n) = n := by
  unfold natCharsPad digitsVal
  rw [List.foldl_append, digitsVal_replicate_zero]
  exact digitsVal_natChars n

/-- Character inventory of `natChars`. -/
theorem mem_natChars_digit {c : Char} {n : ℕ} (h : c ∈ natChars n) :
    isDigitCh c = true := by
  have := natChars_all_digits n
  rw [List.all_eq_true] at this
  exact this c h

/-- Character inventory of `toFixedQ`: only `'-'`, `'.'` and digits. -/
theorem mem_toFixedQ {c : Char} {k : ℕ} {x : ℚ} (h : c ∈ (toFixedQ k x).data) :
    c = '-' ∨ c = '.' ∨ isDigitCh c = true := by
  unfold toFixedQ at h
  split at h <;>
    simp only [List.mem_append, List.mem_cons] at h
  · rcases h with h | h
    · left
      rcases (by split at h <;> simp_all : c = '-') with rfl
      rfl
    · exact Or.inr (Or.inr (mem_natChars_digit h))
  · rcases h with (h | h) | h | h
    · left
      rcases (by split at h <;> simp_all : c = '-') with rfl
      rfl
    · exact Or.inr (Or.inr (mem_natChars_digit h))
    · exact Or.inr (Or.inl h)
    · right; right
      have := natCharsPad_all_digits k ((⌊x * 10 ^ k + 1 / 2⌋).natAbs % 10 ^ k)
      rw [List.all_eq_true] at this
      exact this c h

/-! ## Evaluating `jsParseFloat` on shaped inputs -/

theorem takeWhile_append_all {α : Type} (p : α → Bool) :
    ∀ (l r : List α), l.all p = true → (l ++ r).takeWhile p = l ++ r.takeWhile p := by
  intro l
  induction l with
  | nil => simp
  | cons a t ih =>
    intro r h
    simp only [List.all_cons, Bool.and_eq_true] at h
    simp [List.takeWhile_cons, h.1, ih r h.2]

theorem dropWhile_append_all {α : Type} (p : α → Bool) :
    ∀ (l r : List α), l.all p = true → (l ++ r).dropWhile p = r.dropWhile p := by
  intro l
  induction l with
  | nil => simp
  | cons a t ih =>
    intro r h
    simp only [List.all_cons, Bool.and_eq_true] at h
    simp [List.dropWhile_cons, h.1, ih r h.2]

theorem takeWhile_all_self {α : Type} (p : α → Bool) (l : List α) (h : l.all p = true) :
    l.takeWhile p = l := by
  have := takeWhile_append_all p l [] h
  simpa using this

theorem dropWhile_all_self {α : Type} (p : α → Bool) (l : List α) (h : l.all p = true) :
    l.dropWhile p = [] := by
  have := dropWhile_append_all p l [] h
  simpa using this

theorem isWsCh_false_of_digit {c : Char} (h : isDigitCh c = true) : isWsCh c = false := by
  cases hw : isWsCh c
  · rfl
  · exfalso
    unfold isWsCh at hw
    simp only [Bool.or_eq_true, decide_eq_true_eq] at hw
    rcases hw with ((rfl | rfl) | rfl) | rfl <;> revert h <;> decide

theorem ne_dash_of_digit {c : Char} (h : isDigitCh c = true) : ¬(c = '-') := by
  intro hEq
  subst hEq
  revert h
  decide

theorem ne_plus_of_digit {c : Char} (h : isDigitCh c = true) : ¬(c = '+') := by
  intro hEq
  subst hEq
  revert h
  decide

theorem jsParseFloat_digits (ds : List Char) (h1 : ds ≠ []) (h2 : ds.all isDigitCh = true) :
    jsParseFloat ⟨ds⟩ = some (digitsVal ds) := by
  obtain ⟨c, t, rfl⟩ := List.exists_cons_of_ne_nil h1
  have hc : isDigitCh c = true := by
    simp only [List.all_cons, Bool.and_eq_true] at h2
    exact h2.1
  have hdw : (c :: t).dropWhile isWsCh = c :: t := by
    rw [List.dropWhile_cons, isWsCh_false_of_digit hc]
    simp
  have hss : signSplit (c :: t) = (1, c :: t) := by
    show (if c = '-' then ((-1 : ℚ), t) else if c = '+' then ((1 : ℚ), t) else (1, c :: t))
        = (1, c :: t)
    rw [if_neg (ne_dash_of_digit hc), if_neg (ne_plus_of_digit hc)]
  have hint : (c :: t).takeWhile isDigitCh = c :: t := takeWhile_all_self _ _ h2
  have hr1 : (c :: t).dropWhile isDigitCh = [] := dropWhile_all_self _ _ h2
  unfold jsParseFloat
  simp only [hdw, hss, hint, hr1]
  simp [digitsVal, expOf]

theorem isWsCh_dash : isWsCh '-' = false := by decide

theorem isWsCh_dot : isWsCh '.' = false := by decide

theorem isDigitCh_dot : isDigitCh '.' = false := by decide

theorem jsParseFloat_digits_neg (ds : List Char) (h1 : ds ≠ [])
    (h2 : ds.all isDigitCh = true) :
    jsParseFloat ⟨'-' :: ds⟩ = some (-(digitsVal ds : ℚ)) := by
  have hdw : ('-' :: ds).dropWhile isWsCh = '-' :: ds := by
    simp [List.dropWhile_cons, isWsCh_dash]
  have hss : signSplit ('-' :: ds) = (-1, ds) := by
    show (if ('-' : Char) = '-' then ((-1 : ℚ), ds)
          else if ('-' : Char) = '+' then ((1 : ℚ), ds) else ((1 : ℚ), '-' :: ds))
        = ((-1 : ℚ), ds)
    rw [if_pos rfl]
  have hint : ds.takeWhile isDigitCh = ds := takeWhile_all_self _ _ h2
  have hr1 : ds.dropWhile isDigitCh = [] := dropWhile_all_self _ _ h2
  unfold jsParseFloat
  simp only [hdw, hss, hint, hr1]
  simp [h1, digitsVal, expOf]

theorem jsParseFloat_digits_frac (ds fs : List Char)
    (hds : ds.all isDigitCh = true) (hf1 : fs ≠ []) (hf2 : fs.all isDigitCh = true) :
    jsParseFloat ⟨ds ++ '.' :: fs⟩
      = some ((digitsVal ds : ℚ) + (digitsVal fs : ℚ) / 10 ^ fs.length) := by
  have hdw : (ds ++ '.' :: fs).dropWhile isWsCh = ds ++ '.' :: fs := by
    cases ds with
    | nil => simp [List.dropWhile_cons, isWsCh_dot]
    | cons c t =>
      have hc : isDigitCh c = true := by
        simp only [List.all_cons, Bool.and_eq_true] at hds
        exact hds.1
      simp [List.dropWhile_cons, isWsCh_false_of_digit hc]
  have hss : signSplit (ds ++ '.' :: fs) = (1, ds ++ '.' :: fs) := by
    cases ds with
    | nil =>
      simp only [List.nil_append]
      show (if ('.' : Char) = '-' then ((-1 : ℚ), fs)
            else if ('.' : Char) = '+' then ((1 : ℚ), fs) else ((1 : ℚ), '.' :: fs))
          = ((1 : ℚ), '.' :: fs)
      rw [if_neg (by decide : ¬('.' : Char) = '-'), if_neg (by decide : ¬('.' : Char) = '+')]
    | cons c t =>
      have hc : isDigitCh c = true := by
        simp only [List.all_cons, Bool.and_eq_true] at hds
        exact hds.1
      show (if c = '-' then ((-1 : ℚ), t ++ '.' :: fs)
            else if c = '+' then ((1 : ℚ), t ++ '.' :: fs)
            else ((1 : ℚ), c :: (t ++ '.' :: fs)))
          = ((1 : ℚ), (c :: t) ++ '.' :: fs)
      rw [if_neg (ne_dash_of_digit hc), if_neg (ne_plus_of_digit hc)]
      simp
  have hint : (ds ++ '.' :: fs).takeWhile isDigitCh = ds := by
    rw [takeWhile_append_all _ _ _ hds]
    simp [List.takeWhile_cons, isDigitCh_dot]
  have hr1 : (ds ++ '.' :: fs).dropWhile isDigitCh = '.' :: fs := by
    rw [dropWhile_append_all _ _ _ hds]
    simp [List.dropWhile_cons, isDigitCh_dot]
  have hfr : fs.takeWhile isDigitCh = fs := takeWhile_all_self _ _ hf2
  have hfd : fs.dropWhile isDigitCh = [] := dropWhile_all_self _ _ hf2
  unfold jsParseFloat
  simp only [hdw, hss, hint, hr1, hfr, hfd]
  simp [hf1, expOf]

theorem jsParseFloat_digits_frac_neg (ds fs : List Char)
    (hds : ds.all isDigitCh = true) (hf1 : fs ≠ []) (hf2 : fs.all isDigitCh = true) :
    jsParseFloat ⟨'-' :: (ds ++ '.' :: fs)⟩
      = some (-((digitsVal ds : ℚ) + (digitsVal fs : ℚ) / 10 ^ fs.length)) := by
  have hdw : ('-' :: (ds ++ '.' :: fs)).dropWhile isWsCh = '-' :: (ds ++ '.' :: fs) := by
    simp [List.dropWhile_cons, isWsCh_dash]
  have hss : signSplit ('-' :: (ds ++ '.' :: fs)) = (-1, ds ++ '.' :: fs) := by
    show (if ('-' : Char) = '-' then ((-1 : ℚ), ds ++ '.' :: fs)
          else if ('-' : Char) = '+' then ((1 : ℚ), ds ++ '.' :: fs)
          else ((1 : ℚ), '-' :: (ds ++ '.' :: fs)))
        = ((-1 : ℚ), ds ++ '.' :: fs)
    rw [if_pos rfl]
  have hint : (ds ++ '.' :: fs).takeWhile isDigitCh = ds := by
    rw [takeWhile_append_all _ _ _ hds]
    simp [List.takeWhile_cons, isDigitCh_dot]
  have hr1 : (ds ++ '.' :: fs).dropWhile isDigitCh = '.' :: fs := by
    rw [dropWhile_append_all _ _ _ hds]
    simp [List.dropWhile_cons, isDigitCh_dot]
  have hfr : fs.takeWhile isDigitCh = fs := takeWhile_all_self _ _ hf2
  have hfd : fs.dropWhile isDigitCh = [] := dropWhile_all_self _ _ hf2
  unfold jsParseFloat
  simp only [hdw, hss, hint, hr1, hfr, hfd]
  simp [hf1, expOf]

/-! ## The decimal rendering re-parses to the same rational -/

theorem den_dvd_of_mul_pow_eq_int (q : ℚ) (c : ℤ) (j : ℕ)
    (h : q * 10 ^ j = (c : ℚ)) : q.den ∣ 10 ^ j := by
  have h10 : ((10 ^ j : ℤ) : ℚ) ≠ 0 := by
    push_cast
    positivity
  have hq : q = Rat.divInt c (10 ^ j) := by
    rw [Rat.divInt_eq_div, eq_div_iff h10]
    push_cast
    push_cast at h
    linarith [h]
  have hdvd : ((Rat.divInt c (10 ^ j)).den : ℤ) ∣ (10 ^ j : ℤ) := Rat.den_dvd c (10 ^ j)
  rw [← hq] at hdvd
  have : ((q.den : ℤ)) ∣ (((10 ^ j : ℕ) : ℤ)) := by
    push_cast
    exact_mod_cast hdvd
  exact_mod_cast this

theorem exists_dvd_ten_pow_le {n : ℕ} (j : ℕ) (h : n ∣ 10 ^ j) :
    ∃ k, k ≤ n ∧ n ∣ 10 ^ k := by
  induction n using Nat.strong_induction_on generalizing j with
  | _ n ih =>
    match hn : n with
    | 0 =>
      exfalso
      have := Nat.eq_zero_of_zero_dvd h
      have : (10 : ℕ) ^ j ≠ 0 := by positivity
      omega
    | 1 => exact ⟨0, by omega, by simpa using one_dvd _⟩
    | (m + 2) =>
      set p := (m + 2).minFac with hp_def
      have hp : p.Prime := Nat.minFac_prime (by omega)
      have hpn : p ∣ m + 2 := Nat.minFac_dvd _
      have hn' : (m + 2) / p * p = m + 2 := Nat.div_mul_cancel hpn
      have hlt : (m + 2) / p < m + 2 := Nat.div_lt_self (by omega) hp.two_le
      have hd' : (m + 2) / p ∣ 10 ^ j := dvd_trans ⟨p, hn'.symm⟩ h
      obtain ⟨k, hk, hdvd⟩ := ih _ hlt j hd'
      have hp10 : p ∣ 10 := hp.dvd_of_dvd_pow (hpn.trans h)
      refine ⟨k + 1, by omega, ?_⟩
      rw [← hn', pow_succ]
      exact Nat.mul_dvd_mul hdvd hp10

theorem decExp_dvd {q : ℚ} {j : ℕ} (h : q.den ∣ 10 ^ j) : q.den ∣ 10 ^ decExp q := by
  obtain ⟨k, hk, hdvd⟩ := exists_dvd_ten_pow_le j h
  have hmem : k ∈ (List.range (q.den + 1)).filter fun k => decide (q.den ∣ 10 ^ k) :=
    List.mem_filter.mpr ⟨List.mem_range.mpr (by omega), by simpa using hdvd⟩
  have hne : (List.range (q.den + 1)).filter (fun k => decide (q.den ∣ 10 ^ k)) ≠ [] :=
    List.ne_nil_of_mem hmem
  obtain ⟨a, t, hl⟩ := List.exists_cons_of_ne_nil hne
  have hh : decExp q ∈ (List.range (q.den + 1)).filter fun k => decide (q.den ∣ 10 ^ k) := by
    unfold decExp
    rw [hl]
    simp
  have := (List.mem_filter.mp hh).2
  simpa using this

theorem mem_numFilter_natChars {c : Char} {n : ℕ} (h : c ∈ natChars n) :
    numFilterChar c = true := by
  unfold numFilterChar
  rw [mem_natChars_digit h]
  rfl

theorem dataOfMk (l : List Char) : (⟨l⟩ : String).data = l := rfl

theorem parseNumber_eval_digits (P : Prop) [Decidable P] (ds : List Char)
    (h1 : ds ≠ []) (h2 : ds.all isDigitCh = true) :
    parseNumber ⟨(if P then ['-'] else []) ++ ds⟩
      = (if P then (-1 : ℚ) else 1) * digitsVal ds := by
  have hdig : ∀ c ∈ ds, numFilterChar c = true := by
    intro c hc
    rw [List.all_eq_true] at h2
    unfold numFilterChar
    rw [h2 c hc]
    rfl
  by_cases hP : P
  · rw [if_pos hP, if_pos hP]
    have hflt : ('-' :: ds).filter numFilterChar = '-' :: ds := by
      rw [List.filter_eq_self]
      intro c hc
      rcases List.mem_cons.mp hc with rfl | hc
      · decide
      · exact hdig c hc
    unfold parseNumber
    simp only [dataOfMk, List.singleton_append]
    rw [if_neg (by simp), hflt, jsParseFloat_digits_neg _ h1 h2]
    show -(digitsVal ds : ℚ) = -1 * digitsVal ds
    ring
  · rw [if_neg hP, if_neg hP]
    have hflt : ds.filter numFilterChar = ds := by
      rw [List.filter_eq_self]
      exact hdig
    unfold parseNumber
    simp only [dataOfMk, List.nil_append]
    rw [if_neg (by simp [h1]), hflt, jsParseFloat_digits _ h1 h2]
    show (digitsVal ds : ℚ) = 1 * digitsVal ds
    ring

theorem parseNumber_eval_frac (P : Prop) [Decidable P] (ds fs : List Char)
    (hds : ds.all isDigitCh = true) (hf1 : fs ≠ []) (hf2 : fs.all isDigitCh = true) :
    parseNumber ⟨(if P then ['-'] else []) ++ ds ++ '.' :: fs⟩
      = (if P then (-1 : ℚ) else 1)
          * ((digitsVal ds : ℚ) + (digitsVal fs : ℚ) / 10 ^ fs.length) := by
  have hdig : ∀ c ∈ ds ++ '.' :: fs, numFilterChar c = true := by
    intro c hc
    rcases List.mem_append.mp hc with hc | hc
    · rw [List.all_eq_true] at hds
      unfold numFilterChar
      rw [hds c hc]
      rfl
    rcases List.mem_cons.mp hc with rfl | hc
    · decide
    · rw [List.all_eq_true] at hf2
      unfold numFilterChar
      rw [hf2 c hc]
      rfl
  by_cases hP : P
  · rw [if_pos hP, if_pos hP]
    have hflt : ('-' :: (ds ++ '.' :: fs)).filter numFilterChar
        = '-' :: (ds ++ '.' :: fs) := by
      rw [List.filter_eq_self]
      intro c hc
      rcases List.mem_cons.mp hc with rfl | hc
      · decide
      · exact hdig c hc
    unfold parseNumber
    simp only [dataOfMk, List.singleton_append, List.cons_append, List.append_assoc,
      List.nil_append]
    rw [if_neg (by simp), hflt, jsParseFloat_digits_frac_neg _ _ hds hf1 hf2]
    show -((digitsVal ds : ℚ) + (digitsVal fs : ℚ) / 10 ^ fs.length)
        = -1 * ((digitsVal ds : ℚ) + (digitsVal fs : ℚ) / 10 ^ fs.length)
    ring
  · rw [if_neg hP, if_neg hP]
    have hflt : (ds ++ '.' :: fs).filter numFilterChar = ds ++ '.' :: fs := by
      rw [List.filter_eq_self]
      exact hdig
    unfold parseNumber
    simp only [dataOfMk, List.nil_append, List.append_assoc, List.cons_append]
    rw [if_neg (by simp), hflt, jsParseFloat_digits_frac _ _ hds hf1 hf2]
    show (digitsVal ds : ℚ) + (digitsVal fs : ℚ) / 10 ^ fs.length
        = 1 * ((digitsVal ds : ℚ) + (digitsVal fs : ℚ) / 10 ^ fs.length)
    ring

theorem parseNumber_int (P : Prop) [Decidable P] (a : ℕ) :
    parseNumber ⟨(if P then ['-'] else []) ++ natChars a⟩
      = (if P then (-1 : ℚ) else 1) * a := by
  have := parseNumber_eval_digits P (natChars a) (natChars_ne_nil a) (natChars_all_digits a)
  rwa [digitsVal_natChars] at this

theorem parseNumber_intFrac (P : Prop) [Decidable P] (a k b : ℕ)
    (hk : 1 ≤ k) (hb : b < 10 ^ k) :
    parseNumber ⟨(if P then ['-'] else []) ++ natChars a ++ '.' :: natCharsPad k b⟩
      = (if P then (-1 : ℚ) else 1) * ((a : ℚ) + (b : ℚ) / 10 ^ k) := by
  have := parseNumber_eval_frac P (natChars a) (natCharsPad k b)
    (natChars_all_digits a) (natCharsPad_ne_nil hk hb) (natCharsPad_all_digits k b)
  rw [digitsVal_natChars, digitsVal_natCharsPad, natCharsPad_length hk hb] at this
  exact this

theorem parseNumber_decRender (q : ℚ) {j : ℕ} (hj : q.den ∣ 10 ^ j) :
    parseNumber (decRender q) = q := by
  have hk : q.den ∣ 10 ^ decExp q := decExp_dvd hj
  have hden0 : 0 < q.den := q.pos
  have hdenQ : ((q.den : ℚ)) ≠ 0 := by
    exact_mod_cast hden0.ne'
  have hD : q.den * (10 ^ decExp q / q.den) = 10 ^ decExp q := Nat.mul_div_cancel' hk
  have h10k : (0 : ℕ) < 10 ^ decExp q := by positivity
  have hDpos : 0 < 10 ^ decExp q / q.den := Nat.div_pos (Nat.le_of_dvd h10k hk) hden0
  have hmul : q * (q.den : ℚ) = (q.num : ℚ) := by
    calc q * (q.den : ℚ) = (q.num : ℚ) / (q.den : ℚ) * (q.den : ℚ) := by
          rw [Rat.num_div_den]
    _ = (q.num : ℚ) := div_mul_cancel₀ _ hdenQ
  have h10cast : ((10 : ℚ)) ^ decExp q
      = (q.den : ℚ) * ((10 ^ decExp q / q.den : ℕ) : ℚ) := by
    exact_mod_cast congrArg (fun x : ℕ => (x : ℚ)) hD.symm
  have hqn : ((q.num * ((10 ^ decExp q / q.den : ℕ) : ℤ) : ℤ) : ℚ) = q * 10 ^ decExp q := by
    rw [Int.cast_mul, Int.cast_natCast, h10cast, ← mul_assoc, hmul]
  rcases Nat.eq_zero_or_pos (decExp q) with hk0 | hkpos
  · -- integral rendering
    have hden1 : q.den = 1 := by
      rw [hk0, pow_zero] at hk
      exact Nat.dvd_one.mp hk
    have hq_int : ((q.num : ℚ)) = q := by
      conv_rhs => rw [← Rat.num_div_den q, hden1]
      simp
    have hrend : decRender q
        = ⟨(if q.num < 0 then ['-'] else []) ++ natChars q.num.natAbs⟩ := by
      unfold decRender
      simp [hk0, hden1]
    rw [hrend, parseNumber_int (q.num < 0) q.num.natAbs]
    have habs : ((q.num.natAbs : ℕ) : ℚ) = |(q.num : ℚ)| := by
      push_cast [Int.cast_natAbs]
      norm_num
    rcases lt_or_ge q.num 0 with hneg | hpos
    · rw [if_pos hneg, habs, abs_of_neg (by exact_mod_cast hneg)]
      linarith [hq_int]
    · rw [if_neg (not_lt.mpr hpos), habs, abs_of_nonneg (by exact_mod_cast hpos)]
      linarith [hq_int]
  · -- fractional rendering
    have hblt : (q.num * ((10 ^ decExp q / q.den : ℕ) : ℤ)).natAbs % 10 ^ decExp q
        < 10 ^ decExp q := Nat.mod_lt _ h10k
    have hrend : decRender q
        = ⟨(if q.num < 0 then ['-'] else [])
            ++ natChars ((q.num * ((10 ^ decExp q / q.den : ℕ) : ℤ)).natAbs / 10 ^ decExp q)
            ++ '.' :: natCharsPad (decExp q)
                ((q.num * ((10 ^ decExp q / q.den : ℕ) : ℤ)).natAbs % 10 ^ decExp q)⟩ := by
      unfold decRender
      rw [if_neg (by omega)]
    rw [hrend, parseNumber_intFrac (q.num < 0) _ _ _ hkpos hblt]
    have hsplit : (((q.num * ((10 ^ decExp q / q.den : ℕ) : ℤ)).natAbs / 10 ^ decExp q : ℕ) : ℚ)
        + (((q.num * ((10 ^ decExp q / q.den : ℕ) : ℤ)).natAbs % 10 ^ decExp q : ℕ) : ℚ)
          / 10 ^ decExp q
        = (((q.num * ((10 ^ decExp q / q.den : ℕ) : ℤ)).natAbs : ℕ) : ℚ) / 10 ^ decExp q := by
      have hmod := Nat.div_add_mod
        ((q.num * ((10 ^ decExp q / q.den : ℕ) : ℤ)).natAbs) (10 ^ decExp q)
      rw [Nat.mul_comm] at hmod
      field_simp
      exact_mod_cast hmod
    rw [hsplit]
    have habs : (((q.num * ((10 ^ decExp q / q.den : ℕ) : ℤ)).natAbs : ℕ) : ℚ)
        = |((q.num * ((10 ^ decExp q / q.den : ℕ) : ℤ) : ℤ) : ℚ)| := by
      push_cast [Int.cast_natAbs]
      norm_num
    have h10Q : ((10 : ℚ)) ^ decExp q ≠ 0 := by positivity
    rcases lt_or_ge q.num 0 with hneg | hpos
    · have hn_neg : (q.num * ((10 ^ decExp q / q.den : ℕ) : ℤ)) < 0 :=
        mul_neg_of_neg_of_pos hneg (by exact_mod_cast hDpos)
      rw [if_pos hneg, habs, abs_of_neg (by exact_mod_cast hn_neg), hqn]
      field_simp
    · have hn_nonneg : (0 : ℤ) ≤ q.num * ((10 ^ decExp q / q.den : ℕ) : ℤ) :=
        mul_nonneg hpos (by positivity)
      rw [if_neg (not_lt.mpr hpos), habs, abs_of_nonneg (by exact_mod_cast hn_nonneg), hqn]
      field_simp

theorem all_takeWhile_true {α : Type} (p : α → Bool) (l : List α) :
    ((l.takeWhile p).all p) = true := by
  induction l with
  | nil => rfl
  | cons a t ih =>
    rw [List.takeWhile_cons]
    split
    · rename_i h
      simp [h, ih]
    · rfl


/-- Core of idempotence: a sign + clean digit body parses to a rational
with power-of-ten denominator. -/
theorem parseNumber_clean_core (P : Prop) [Decidable P] (cs1 : List Char)
    (h1 : cs1.takeWhile isDigitCh ≠ [])
    (h2 : cs1.dropWhile isDigitCh = [] ∨
          ((cs1.dropWhile isDigitCh).headD 'x' = '.' ∧
           (cs1.dropWhile isDigitCh).tail ≠ [] ∧
           (cs1.dropWhile isDigitCh).tail.all isDigitCh = true)) :
    ∃ j : ℕ, (parseNumber ⟨(if P then ['-'] else []) ++ cs1⟩).den ∣ 10 ^ j := by
  set ds := cs1.takeWhile isDigitCh with hds_def
  set r := cs1.dropWhile isDigitCh with hr_def
  have hglue : ds ++ r = cs1 := List.takeWhile_append_dropWhile isDigitCh cs1
  have hdsall : ds.all isDigitCh = true := all_takeWhile_true isDigitCh cs1
  rcases h2 with hr | ⟨hh, ht, hall⟩
  · have hs : cs1 = ds := by
      rw [← hglue, hr, List.append_nil]
    refine ⟨0, ?_⟩
    rw [hs, parseNumber_eval_digits P ds h1 hdsall]
    apply den_dvd_of_mul_pow_eq_int _ ((if P then -1 else 1) * (digitsVal ds : ℤ)) 0
    by_cases hP : P
    · rw [if_pos hP, if_pos hP]
      push_cast
      ring
    · rw [if_neg hP, if_neg hP]
      push_cast
      ring
  · have hrne : r ≠ [] := by
      intro h0
      rw [h0] at hh
      exact absurd hh (by decide)
    obtain ⟨a, f, hr⟩ := List.exists_cons_of_ne_nil hrne
    have ha : a = '.' := by
      rw [hr] at hh
      simpa using hh
    subst ha
    have hf_ne : f ≠ [] := by
      rw [hr] at ht
      simpa using ht
    have hf_all : f.all isDigitCh = true := by
      rw [hr] at hall
      simpa using hall
    have hs : cs1 = ds ++ '.' :: f := by
      rw [← hglue, hr]
    refine ⟨f.length, ?_⟩
    rw [hs, ← List.append_assoc, parseNumber_eval_frac P ds f hdsall hf_ne hf_all]
    apply den_dvd_of_mul_pow_eq_int _
      ((if P then -1 else 1) * (digitsVal ds * 10 ^ f.length + digitsVal f : ℤ)) f.length
    by_cases hP : P
    · rw [if_pos hP, if_pos hP]
      push_cast
      field_simp
    · rw [if_neg hP, if_neg hP]
      push_cast
      field_simp

/-- A clean numeric string's value has a power-of-ten denominator, so
`parseNumber` round-trips through the decimal rendering of its own result. -/
theorem parseNumber_idem (s : String) (h : cleanNumB s = true) :
    parseNumber (decRender (parseNumber s)) = parseNumber s := by
  unfold cleanNumB at h
  simp only [Bool.and_eq_true, Bool.or_eq_true, Bool.not_eq_true', List.isEmpty_eq_false,
    List.isEmpty_iff, decide_eq_true_eq] at h
  obtain ⟨h1, h2⟩ := h
  have h2' :
      ∀ cs1 : List Char,
        cs1.dropWhile isDigitCh = [] ∨
          (((cs1.dropWhile isDigitCh).headD 'x' = '.' ∧ (cs1.dropWhile isDigitCh).tail ≠ []) ∧
            (cs1.dropWhile isDigitCh).tail.all isDigitCh = true) →
        cs1.dropWhile isDigitCh = [] ∨
          ((cs1.dropWhile isDigitCh).headD 'x' = '.' ∧
           (cs1.dropWhile isDigitCh).tail ≠ [] ∧
           (cs1.dropWhile isDigitCh).tail.all isDigitCh = true) := by
    intro cs1 hx
    tauto
  by_cases hneg : s.data.headD 'x' = '-'
  · rw [if_pos hneg] at h1 h2
    have hne : s.data ≠ [] := by
      intro h0
      rw [h0] at hneg
      exact absurd hneg (by decide)
    obtain ⟨c, t, hst⟩ := List.exists_cons_of_ne_nil hne
    have hc : c = '-' := by
      rw [hst] at hneg
      simpa using hneg
    subst hc
    have htail : s.data.tail = t := by
      rw [hst]
      rfl
    rw [htail] at h1 h2
    obtain ⟨j, hj⟩ := parseNumber_clean_core True t h1 (h2' t h2)
    have hs : (⟨(if True then ['-'] else []) ++ t⟩ : String) = s := by
      show (⟨'-' :: t⟩ : String) = s
      rw [← hst]
    rw [← hs]
    exact parseNumber_decRender _ hj
  · rw [if_neg hneg] at h1 h2
    obtain ⟨j, hj⟩ := parseNumber_clean_core False s.data h1 (h2' s.data h2)
    have hs : (⟨(if False then ['-'] else []) ++ s.data⟩ : String) = s := rfl
    rw [← hs]
    exact parseNumber_decRender _ hj

/-! ## Claim theorems -/

/-- Shape of `parseTransactionValue` with the parse result exposed. -/
theorem parseTransactionValue_eq (s : String) :
    parseTransactionValue s =
      match jsParseFloat
          ⟨(cleanedTxValue s).filter fun c => !(c = '-' || c = '(' || c = ')')⟩ with
      | none => 0
      | some v => if accountingNeg s then -|v| else |v| := rfl

/-- Claim C8: `parseNumber` never throws (it is a total function); it returns
`0` for the empty string, `"-"`, and text with no parseable number after
stripping (e.g. `"N/A"`); and it is idempotent on already-clean integer and
float strings: parsing the decimal rendering of `parseNumber s` returns
`parseNumber s` again. -/
theorem C8_parseNumber_total_zero_idem :
    (parseNumber "" = 0 ∧ parseNumber "-" = 0 ∧ parseNumber "N/A" = 0) ∧
    (∀ s : String, jsParseFloat ⟨s.data.filter numFilterChar⟩ = none → parseNumber s = 0) ∧
    (∀ s : String, cleanNumB s = true →
        parseNumber (decRender (parseNumber s)) = parseNumber s) := by
  refine ⟨⟨by decide, by decide, by decide⟩, ?_, fun s h => parseNumber_idem s h⟩
  intro s h
  unfold parseNumber
  split
  · rfl
  · rw [h]

/-- Witness for C8 at the clean float string `"12.5"`. -/
theorem C8_witness :
    cleanNumB "12.5" = true ∧
    parseNumber (decRender (parseNumber "12.5")) = parseNumber "12.5" :=
  ⟨by decide, C8_parseNumber_total_zero_idem.2.2 "12.5" (by decide)⟩

/-- Claim C9: `parseTransactionValue` strips currency symbols, commas and
whitespace, treats a `-` or `(` anywhere in the cleaned string as a negative
sign (accounting notation), returns the signed value, and `0` on parse
failure; in particular `"($1,234.50)" ↦ -1234.50` and `"$500" ↦ 500`. -/
theorem C9_parseTransactionValue_spec :
    parseTransactionValue "($1,234.50)" = -(1234.5 : ℚ) ∧
    parseTransactionValue "$500" = 500 ∧
    (∀ s : String, accountingNeg s = true → parseTransactionValue s ≤ 0) ∧
    (∀ s : String, accountingNeg s = false → 0 ≤ parseTransactionValue s) ∧
    (∀ s : String,
      jsParseFloat ⟨(cleanedTxValue s).filter fun c => !(c = '-' || c = '(' || c = ')')⟩
          = none →
      parseTransactionValue s = 0) := by
  refine ⟨?_, ?_, ?_, ?_, ?_⟩
  · -- "($1,234.50)" ↦ -1234.50
    rw [parseTransactionValue_eq,
      show ((cleanedTxValue "($1,234.50)").filter
          fun c => !(c = '-' || c = '(' || c = ')')) = "1234".data ++ '.' :: "50".data
        from by decide,
      jsParseFloat_digits_frac "1234".data "50".data (by decide) (by decide) (by decide),
      show accountingNeg "($1,234.50)" = true from by decide,
      show digitsVal "1234".data = 1234 from by decide,
      show digitsVal "50".data = 50 from by decide,
      show ("50".data).length = 2 from by decide]
    norm_num
  · -- "$500" ↦ 500
    rw [parseTransactionValue_eq,
      show ((cleanedTxValue "$500").filter
          fun c => !(c = '-' || c = '(' || c = ')')) = "500".data
        from by decide,
      jsParseFloat_digits "500".data (by decide) (by decide),
      show accountingNeg "$500" = false from by decide,
      show digitsVal "500".data = 500 from by decide]
    norm_num
  · intro s h
    rw [parseTransactionValue_eq]
    cases jsParseFloat ⟨(cleanedTxValue s).filter fun c => !(c = '-' || c = '(' || c = ')')⟩ with
    | none => norm_num
    | some v =>
      rw [h]
      simp only [if_true]
      exact neg_nonpos.mpr (abs_nonneg v)
  · intro s h
    rw [parseTransactionValue_eq]
    cases jsParseFloat ⟨(cleanedTxValue s).filter fun c => !(c = '-' || c = '(' || c = ')')⟩ with
    | none => norm_num
    | some v =>
      rw [h]
      simp only [Bool.false_eq_true, if_false]
      exact abs_nonneg v
  · intro s h
    rw [parseTransactionValue_eq, h]

/-- Witness for C9's conditional clauses at concrete inputs. -/
theorem C9_witness :
    accountingNeg "($1,234.50)" = true ∧ parseTransactionValue "($1,234.50)" ≤ 0 ∧
    accountingNeg "$500" = false ∧ 0 ≤ parseTransactionValue "$500" :=
  ⟨by decide, C9_parseTransactionValue_spec.2.2.1 "($1,234.50)" (by decide),
   by decide, C9_parseTransactionValue_spec.2.2.2.1 "$500" (by decide)⟩

/-- Claim C2: `validatePutCallData` returns `isValid = false` iff all four
totals (put/call volume, put/call open interest) are zero; in that case the
warnings explain the absence of data; otherwise `isValid = true`. -/
theorem C2_validatePutCallData_isValid (d : PutCallTotals) :
    ((validatePutCallData d).isValid = false ↔
      (d.totalPutVolume = 0 ∧ d.totalCallVolume = 0 ∧
       d.totalPutOI = 0 ∧ d.totalCallOI = 0)) ∧
    ((validatePutCallData d).isValid = false →
      "No put/call volume or open interest data found" ∈ (validatePutCallData d).warnings) := by
  unfold validatePutCallData
  split
  · rename_i hall
    refine ⟨⟨fun _ => hall, fun _ => rfl⟩, fun _ => ?_⟩
    simp
  · rename_i hall
    refine ⟨⟨fun hfalse => ?_, fun hz => absurd hz hall⟩, fun hfalse => ?_⟩
    · simp at hfalse
    · simp at hfalse

/-- Witness for C2 at the all-zero totals record. -/
theorem C2_witness :
    (validatePutCallData ⟨0, 0, 0, 0, 0, 0⟩).isValid = false ∧
    "No put/call volume or open interest data found"
      ∈ (validatePutCallData ⟨0, 0, 0, 0, 0, 0⟩).warnings := by
  have h := C2_validatePutCallData_isValid ⟨0, 0, 0, 0, 0, 0⟩
  have h1 : (validatePutCallData ⟨0, 0, 0, 0, 0, 0⟩).isValid = false :=
    h.1.mpr ⟨rfl, rfl, rfl, rfl⟩
  exact ⟨h1, h.2 h1⟩

/-- Claim C4: With profit margin `"10%"`, ROE `"20%"`, current ratio `"2"`,
debt/equity `"0.2"`, P/E `"15"`, EPS growth `"5%"` and the default weights,
the overall health score is at least 70, i.e. the rating is `"Good"` or
`"Excellent"` (concretely it is 82, `"Excellent"`). -/
theorem C4_healthScore_example :
    70 ≤ (calculateHealthScore
      { profitMargin := some "10%", returnOnEquity := some "20%",
        currentRatio := some "2", debtToEquity := some "0.2",
        pe := some "15", epsGrowth := some "5%" } defaultWeights).overall_score ∧
    ((calculateHealthScore
      { profitMargin := some "10%", returnOnEquity := some "20%",
        currentRatio := some "2", debtToEquity := some "0.2",
        pe := some "15", epsGrowth := some "5%" } defaultWeights).rating = "Good" ∨
     (calculateHealthScore
      { profitMargin := some "10%", returnOnEquity := some "20%",
        currentRatio := some "2", debtToEquity := some "0.2",
        pe := some "15", epsGrowth := some "5%" } defaultWeights).rating = "Excellent") := by
  refine ⟨by with_unfolding_all decide, Or.inr (by with_unfolding_all decide)⟩

/-- Claim C5: When no transaction is both within the analysis period and of
absolute value at least the minimum (i.e. the source's filter is empty),
`calculateInsiderSentiment` returns exactly the fixed neutral / low /
zero-transaction record with the single "no significant activity" insight,
and none of the later classification, ratio, or confidence fields. -/
theorem C5_insiderSentiment_empty (now : ℤ) (transactions : List InsiderTransaction)
    (analysis_period : ℤ) (min_transaction_value : ℚ)
    (h : relevantTransactions now transactions analysis_period min_transaction_value = []) :
    calculateInsiderSentiment now transactions analysis_period min_transaction_value
      = noActivityResult := by
  unfold calculateInsiderSentiment
  simp [h]

/-- Witness for C5: one transaction below the minimum value, none qualifying. -/
theorem C5_witness :
    relevantTransactions 20600
      [{ insider := "Jane Doe", relationship := "CEO", date := "01/05/2026",
         transactionType := "Sale", cost := "10.00", shares := "50",
         value := "$500", sharesTotal := "1000" }] 90 10000 = [] ∧
    calculateInsiderSentiment 20600
      [{ insider := "Jane Doe", relationship := "CEO", date := "01/05/2026",
         transactionType := "Sale", cost := "10.00", shares := "50",
         value := "$500", sharesTotal := "1000" }] 90 10000 = noActivityResult := by
  refine ⟨by with_unfolding_all decide, C5_insiderSentiment_empty _ _ _ _ (by with_unfolding_all decide)⟩

/-! ## Health-score component facts (C10) -/

theorem clamp_bounds (x : ℚ) : 0 ≤ min 100 (max 0 x) ∧ min 100 (max 0 x) ≤ 100 :=
  ⟨le_min (by norm_num) (le_max_left 0 x), min_le_left _ _⟩

theorem profitabilityScore_bounds (f : FundamentalMetrics) :
    0 ≤ profitabilityScore f ∧ profitabilityScore f ≤ 100 := by
  unfold profitabilityScore
  cases hm : metricValue true f.profitMargin with
  | none =>
    cases hr : metricValue true f.returnOnEquity with
    | none => norm_num
    | some roe =>
      have h2 := clamp_bounds (50 + roe * 3)
      constructor
      · show 0 ≤ ((50 : ℚ) + min 100 (max 0 (50 + roe * 3))) / 2
        linarith [h2.1]
      · show ((50 : ℚ) + min 100 (max 0 (50 + roe * 3))) / 2 ≤ 100
        linarith [h2.2]
  | some margin =>
    cases hr : metricValue true f.returnOnEquity with
    | none =>
      have h1 := clamp_bounds (50 + margin * 2)
      constructor
      · show 0 ≤ min 100 (max 0 (50 + margin * 2))
        linarith [h1.1]
      · show min 100 (max 0 (50 + margin * 2)) ≤ 100
        linarith [h1.2]
    | some roe =>
      have h1 := clamp_bounds (50 + margin * 2)
      have h2 := clamp_bounds (50 + roe * 3)
      constructor
      · show 0 ≤ (min 100 (max 0 (50 + margin * 2)) + min 100 (max 0 (50 + roe * 3))) / 2
        linarith [h1.1, h2.1]
      · show (min 100 (max 0 (50 + margin * 2)) + min 100 (max 0 (50 + roe * 3))) / 2 ≤ 100
        linarith [h1.2, h2.2]

theorem liquidityScore_bounds (f : FundamentalMetrics) :
    0 ≤ liquidityScore f ∧ liquidityScore f ≤ 100 := by
  unfold liquidityScore
  cases metricValue false f.currentRatio with
  | none => norm_num
  | some ratio =>
    show 0 ≤ (if 1.5 ≤ ratio ∧ ratio ≤ 3 then (90 : ℚ)
              else if 1 ≤ ratio ∧ ratio < 1.5 then 70
              else if ratio > 3 then 60 else 20) ∧
         (if 1.5 ≤ ratio ∧ ratio ≤ 3 then (90 : ℚ)
              else if 1 ≤ ratio ∧ ratio < 1.5 then 70
              else if ratio > 3 then 60 else 20) ≤ 100
    split_ifs <;> norm_num

theorem leverageScore_bounds (f : FundamentalMetrics) :
    0 ≤ leverageScore f ∧ leverageScore f ≤ 100 := by
  unfold leverageScore
  cases metricValue false f.debtToEquity with
  | none => norm_num
  | some d =>
    show 0 ≤ (if d ≤ 0.3 then (90 : ℚ) else if d ≤ 0.6 then 70
              else if d ≤ 1.0 then 50 else max 10 (50 - (d - 1) * 20)) ∧
         (if d ≤ 0.3 then (90 : ℚ) else if d ≤ 0.6 then 70
              else if d ≤ 1.0 then 50 else max 10 (50 - (d - 1) * 20)) ≤ 100
    split_ifs with h1 h2 h3
    · norm_num
    · norm_num
    · norm_num
    · have hgt : (1 : ℚ) < d := by
        have := not_le.mp h3
        norm_num at this
        linarith
      constructor
      · have : (10 : ℚ) ≤ max 10 (50 - (d - 1) * 20) := le_max_left _ _
        linarith
      · apply max_le (by norm_num)
        nlinarith

theorem efficiencyScore_bounds (f : FundamentalMetrics) :
    0 ≤ efficiencyScore f ∧ efficiencyScore f ≤ 100 := by
  unfold efficiencyScore
  cases metricValue false f.pe with
  | none => norm_num
  | some pe =>
    show 0 ≤ (if pe > 0 then
                (if 10 ≤ pe ∧ pe ≤ 20 then (80 : ℚ)
                 else if 5 ≤ pe ∧ pe < 10 then 70
                 else if pe > 20 ∧ pe ≤ 30 then 60
                 else if pe > 30 then max 20 (60 - (pe - 30)) else 30)
              else 50) ∧
         (if pe > 0 then
                (if 10 ≤ pe ∧ pe ≤ 20 then (80 : ℚ)
                 else if 5 ≤ pe ∧ pe < 10 then 70
                 else if pe > 20 ∧ pe ≤ 30 then 60
                 else if pe > 30 then max 20 (60 - (pe - 30)) else 30)
              else 50) ≤ 100
    split_ifs with h0 h1 h2 h3 h4
    · norm_num
    · norm_num
    · norm_num
    · constructor
      · have : (20 : ℚ) ≤ max 20 (60 - (pe - 30)) := le_max_left _ _
        linarith
      · apply max_le (by norm_num)
        linarith [h4]
    · norm_num
    · norm_num

theorem growthScore_bounds (f : FundamentalMetrics) :
    0 ≤ growthScore f ∧ growthScore f ≤ 100 := by
  unfold growthScore
  cases metricValue true f.epsGrowth with
  | none => norm_num
  | some g => exact clamp_bounds (50 + g)

/-- Claim C10: For every fundamentals input and weights, each of the five
component scores lies in `[0, 100]`; and a component whose source metrics
are all absent or unparseable stays at its neutral default of 50
(profitability reads two metrics, the others one each). -/
theorem C10_healthScore_components (f : FundamentalMetrics) (w : HealthWeights) :
    (0 ≤ (calculateHealthScore f w).profitability ∧
      (calculateHealthScore f w).profitability ≤ 100) ∧
    (0 ≤ (calculateHealthScore f w).liquidity ∧ (calculateHealthScore f w).liquidity ≤ 100) ∧
    (0 ≤ (calculateHealthScore f w).leverage ∧ (calculateHealthScore f w).leverage ≤ 100) ∧
    (0 ≤ (calculateHealthScore f w).efficiency ∧
      (calculateHealthScore f w).efficiency ≤ 100) ∧
    (0 ≤ (calculateHealthScore f w).growth ∧ (calculateHealthScore f w).growth ≤ 100) ∧
    (metricValue true f.profitMargin = none → metricValue true f.returnOnEquity = none →
      (calculateHealthScore f w).profitability = 50) ∧
    (metricValue false f.currentRatio = none → (calculateHealthScore f w).liquidity = 50) ∧
    (metricValue false f.debtToEquity = none → (calculateHealthScore f w).leverage = 50) ∧
    (metricValue false f.pe = none → (calculateHealthScore f w).efficiency = 50) ∧
    (metricValue true f.epsGrowth = none → (calculateHealthScore f w).growth = 50) := by
  have hp : (calculateHealthScore f w).profitability = profitabilityScore f := rfl
  have hl : (calculateHealthScore f w).liquidity = liquidityScore f := rfl
  have hlev : (calculateHealthScore f w).leverage = leverageScore f := rfl
  have he : (calculateHealthScore f w).efficiency = efficiencyScore f := rfl
  have hg : (calculateHealthScore f w).growth = growthScore f := rfl
  rw [hp, hl, hlev, he, hg]
  refine ⟨profitabilityScore_bounds f, liquidityScore_bounds f, leverageScore_bounds f,
    efficiencyScore_bounds f, growthScore_bounds f, ?_, ?_, ?_, ?_, ?_⟩
  · intro h1 h2
    unfold profitabilityScore
    rw [h1, h2]
  · intro h
    unfold liquidityScore
    rw [h]
  · intro h
    unfold leverageScore
    rw [h]
  · intro h
    unfold efficiencyScore
    rw [h]
  · intro h
    unfold growthScore
    rw [h]

/-- Witness for C10 at an input with absent and malformed metrics. -/
theorem C10_witness :
    metricValue false ((⟨none, none, some "abc", none, none, some "7%"⟩ :
        FundamentalMetrics).currentRatio) = none ∧
    (calculateHealthScore ⟨none, none, some "abc", none, none, some "7%"⟩
        defaultWeights).liquidity = 50 ∧
    0 ≤ (calculateHealthScore ⟨none, none, some "abc", none, none, some "7%"⟩
        defaultWeights).growth := by
  have h := C10_healthScore_components
    ⟨none, none, some "abc", none, none, some "7%"⟩ defaultWeights
  refine ⟨by decide, h.2.2.2.2.2.2.1 (by decide), h.2.2.2.2.1.1⟩

/-! ## Volume-ratio insight facts (C1, C7) -/

theorem volume_prefix_data :
    "Put/call volume ratio of ".data = "Put/call volume ratio of".data ++ [' '] := by
  decide

theorem volumeInsight_data (vr : ℚ) (sfx : String) :
    ("Put/call volume ratio of " ++ toFixed2 vr ++ sfx).data
      = "Put/call volume ratio of".data ++ (' ' :: ((toFixed2 vr).data ++ sfx.data)) := by
  rw [String.data_append, String.data_append, volume_prefix_data]
  simp

/-- The volume-branch insight contains the pattern and the formatted ratio. -/
theorem volumeInsight_contains (vr : ℚ) :
    strContains "Put/call volume ratio of" (volumeInsightStr vr) = true ∧
    strContains (toFixed2 vr) (volumeInsightStr vr) = true := by
  have main : ∀ sfx : String,
      strContains "Put/call volume ratio of"
        ("Put/call volume ratio of " ++ toFixed2 vr ++ sfx) = true ∧
      strContains (toFixed2 vr)
        ("Put/call volume ratio of " ++ toFixed2 vr ++ sfx) = true := by
    intro sfx
    constructor
    · unfold strContains
      rw [volumeInsight_data]
      have := isSubB_of_append "Put/call volume ratio of".data []
        (' ' :: ((toFixed2 vr).data ++ sfx.data))
      simpa using this
    · unfold strContains
      rw [String.data_append, String.data_append]
      have := isSubB_of_append (toFixed2 vr).data "Put/call volume ratio of ".data sfx.data
      simpa using this
  unfold volumeInsightStr
  split_ifs
  · exact main " indicates heavy put buying"
  · exact main " indicates heavy call buying"
  · exact main " suggests neutral sentiment"

theorem pat_not_in_interp (fix1 fix2 : String) (x : ℚ)
    (h1 : 'P' ∉ fix1.data) (h2 : 'P' ∉ fix2.data) :
    strContains "Put/call volume ratio of" (fix1 ++ toFixed2 x ++ fix2) = false := by
  cases hc : strContains "Put/call volume ratio of" (fix1 ++ toFixed2 x ++ fix2) with
  | false => rfl
  | true =>
    exfalso
    unfold strContains at hc
    have hmem : 'P' ∈ (fix1 ++ toFixed2 x ++ fix2).data :=
      mem_of_isSubB hc (by decide)
    rw [String.data_append, String.data_append] at hmem
    rcases List.mem_append.mp hmem with hm | hm
    · rcases List.mem_append.mp hm with hm | hm
      · exact h1 hm
      · rcases mem_toFixedQ hm with h | h | h
        · exact absurd h (by decide)
        · exact absurd h (by decide)
        · exact absurd h (by decide)
    · exact h2 hm

/-- No open-interest insight contains the volume-ratio pattern. -/
theorem pat_not_in_oi (oi : ℚ) :
    ∀ s ∈ oiInsightList oi, strContains "Put/call volume ratio of" s = false := by
  intro s hs
  unfold oiInsightList at hs
  split_ifs at hs with h0 h1 h2
  · simp only [List.mem_singleton] at hs
    subst hs
    exact pat_not_in_interp "High put/call open interest ratio of "
      " suggests hedging activity" oi (by decide) (by decide)
  · simp only [List.mem_singleton] at hs
    subst hs
    exact pat_not_in_interp "Low put/call open interest ratio of "
      " suggests bullish positioning" oi (by decide) (by decide)
  · simp at hs
  · simp at hs

/-- No trend insight contains the volume-ratio pattern. -/
theorem pat_not_in_trendCore (r0 r1 r2 : ℚ) :
    ∀ s ∈ trendCore r0 r1 r2, strContains "Put/call volume ratio of" s = false := by
  intro s hs
  unfold trendCore at hs
  by_cases h1 : r0 > r1 ∧ r1 > r2
  · rw [if_pos h1] at hs
    simp only [List.mem_singleton] at hs
    subst hs
    decide
  · rw [if_neg h1] at hs
    by_cases h2 : r0 < r1 ∧ r1 < r2
    · rw [if_pos h2] at hs
      simp only [List.mem_singleton] at hs
      subst hs
      decide
    · rw [if_neg h2] at hs
      exact absurd hs (List.not_mem_nil s)

theorem pat_not_in_trend (rows : List PutCallRatioData) :
    ∀ s ∈ trendInsightList rows, strContains "Put/call volume ratio of" s = false := by
  intro s hs
  unfold trendInsightList at hs
  by_cases h3 : rows.length ≥ 3
  · rw [if_pos h3] at hs
    exact pat_not_in_trendCore _ _ _ s hs
  · rw [if_neg h3] at hs
    exact absurd hs (List.not_mem_nil s)

/-- Claim C1: The volume-ratio branch of `analyzePutCallSentiment`:
`> 1.2` ⇒ bearish, `< 0.8` ⇒ bullish, else neutral; exactly one emitted
insight belongs to the volume-ratio branch, and it contains the ratio
formatted to two decimal places. -/
theorem C1_volume_sentiment (vr oi : ℚ) (rows : List PutCallRatioData) :
    ((1.2 < vr → (analyzePutCallSentiment vr oi rows).sentiment = Sentiment.bearish) ∧
     (vr < 0.8 → (analyzePutCallSentiment vr oi rows).sentiment = Sentiment.bullish) ∧
     (vr ≤ 1.2 → 0.8 ≤ vr →
        (analyzePutCallSentiment vr oi rows).sentiment = Sentiment.neutral)) ∧
    ((analyzePutCallSentiment vr oi rows).keyInsights.countP
        (fun s => strContains "Put/call volume ratio of" s) = 1) ∧
    (∀ s ∈ (analyzePutCallSentiment vr oi rows).keyInsights,
      strContains "Put/call volume ratio of" s = true →
      strContains (toFixed2 vr) s = true) := by
  have hsent : (analyzePutCallSentiment vr oi rows).sentiment = volumeSentiment vr := rfl
  have hins : (analyzePutCallSentiment vr oi rows).keyInsights
      = volumeInsightStr vr :: (oiInsightList oi ++ trendInsightList rows) := rfl
  refine ⟨⟨?_, ?_, ?_⟩, ?_, ?_⟩
  · intro h
    rw [hsent]
    unfold volumeSentiment
    rw [if_pos h]
  · intro h
    rw [hsent]
    unfold volumeSentiment
    rw [if_neg (by linarith), if_pos h]
  · intro h1 h2
    rw [hsent]
    unfold volumeSentiment
    rw [if_neg (by linarith), if_neg (by linarith)]
  · rw [hins, List.countP_cons, List.countP_append]
    have hvol := (volumeInsight_contains vr).1
    have hoi : (oiInsightList oi).countP
        (fun s => strContains "Put/call volume ratio of" s) = 0 := by
      rw [List.countP_eq_zero]
      intro s hs
      simp [pat_not_in_oi oi s hs]
    have htr : (trendInsightList rows).countP
        (fun s => strContains "Put/call volume ratio of" s) = 0 := by
      rw [List.countP_eq_zero]
      intro s hs
      simp [pat_not_in_trend rows s hs]
    rw [hoi, htr, hvol]
    simp
  · intro s hs hpat
    rw [hins] at hs
    rcases List.mem_cons.mp hs with rfl | hs
    · exact (volumeInsight_contains vr).2
    rcases List.mem_append.mp hs with hs | hs
    · rw [pat_not_in_oi oi s hs] at hpat
      exact absurd hpat (by simp)
    · rw [pat_not_in_trend rows s hs] at hpat
      exact absurd hpat (by simp)

/-- Witness for C1: ratio 1.5 ⇒ bearish with an insight containing "1.50";
ratio 0.5 ⇒ bullish. -/
theorem C1_witness :
    (analyzePutCallSentiment 1.5 0 []).sentiment = Sentiment.bearish ∧
    strContains "1.50" ((analyzePutCallSentiment 1.5 0 []).keyInsights.getD 0 "") = true ∧
    (analyzePutCallSentiment 0.5 0 []).sentiment = Sentiment.bullish := by
  have h1 := (C1_volume_sentiment 1.5 0 []).1.1 (by norm_num)
  have h2 := (C1_volume_sentiment 0.5 0 []).1.2.1 (by norm_num)
  refine ⟨h1, ?_, h2⟩
  have h3 := (C1_volume_sentiment 1.5 0 []).2.2
    ((analyzePutCallSentiment 1.5 0 []).keyInsights.getD 0 "")
    (by
      show volumeInsightStr 1.5 ∈ _
      exact List.mem_cons_self _ _)
    (by
      show strContains "Put/call volume ratio of" (volumeInsightStr 1.5) = true
      exact (volumeInsight_contains 1.5).1)
  have : toFixed2 (1.5 : ℚ) = "1.50" := by with_unfolding_all decide
  rw [this] at h3
  exact h3

/-- Claim C7 (amended): with at least 3 rows the analyzer appends exactly the
trend insight determined by the source's comparisons — the "increasing"
insight when the first three ratios are strictly decreasing in list order
(`r0 > r1 > r2`; the page lists expirations latest-first, so this is
increasing toward later dates), the "decreasing" insight when `r0 < r1 < r2`,
and none otherwise (in particular on ties). -/
theorem C7_trend_insight (vr oi : ℚ) (rows : List PutCallRatioData)
    (h : rows.length ≥ 3) :
    (analyzePutCallSentiment vr oi rows).keyInsights
      = volumeInsightStr vr :: (oiInsightList oi ++ trendInsightList rows) ∧
    trendInsightList rows
      = (if ((rows.take 3).map fun d => d.putCallVolumeRatio).getD 0 0 >
              ((rows.take 3).map fun d => d.putCallVolumeRatio).getD 1 0 ∧
            ((rows.take 3).map fun d => d.putCallVolumeRatio).getD 1 0 >
              ((rows.take 3).map fun d => d.putCallVolumeRatio).getD 2 0 then
           ["Put/call ratios are increasing across recent expiration dates"]
         else if ((rows.take 3).map fun d => d.putCallVolumeRatio).getD 0 0 <
              ((rows.take 3).map fun d => d.putCallVolumeRatio).getD 1 0 ∧
            ((rows.take 3).map fun d => d.putCallVolumeRatio).getD 1 0 <
              ((rows.take 3).map fun d => d.putCallVolumeRatio).getD 2 0 then
           ["Put/call ratios are decreasing across recent expiration dates"]
         else []) := by
  refine ⟨rfl, ?_⟩
  unfold trendInsightList
  rw [if_pos h]
  rfl

/-- Counterexample to C7 as stated: on first-3 volume ratios 1 < 2 < 3
(strictly increasing in row order) the analyzer emits the *decreasing*
trend insight, not the "increasing" one — the source labels `r0 > r1 > r2`
as increasing because the page lists expirations latest-first. -/
theorem C7_counterexample :
    (([{ expirationDate := "01/17/2025", putVolume := 1, callVolume := 1,
         putCallVolumeRatio := 1, putOpenInterest := 0, callOpenInterest := 0,
         putCallOIRatio := 0, totalVolume := 2, totalOpenInterest := 0 },
       { expirationDate := "02/21/2025", putVolume := 2, callVolume := 1,
         putCallVolumeRatio := 2, putOpenInterest := 0, callOpenInterest := 0,
         putCallOIRatio := 0, totalVolume := 3, totalOpenInterest := 0 },
       { expirationDate := "03/21/2025", putVolume := 3, callVolume := 1,
         putCallVolumeRatio := 3, putOpenInterest := 0, callOpenInterest := 0,
         putCallOIRatio := 0, totalVolume := 4, totalOpenInterest := 0 }] :
       List PutCallRatioData).map fun d => d.putCallVolumeRatio) = [1, 2, 3] ∧
    (analyzePutCallSentiment 1 0
      [{ expirationDate := "01/17/2025", putVolume := 1, callVolume := 1,
         putCallVolumeRatio := 1, putOpenInterest := 0, callOpenInterest := 0,
         putCallOIRatio := 0, totalVolume := 2, totalOpenInterest := 0 },
       { expirationDate := "02/21/2025", putVolume := 2, callVolume := 1,
         putCallVolumeRatio := 2, putOpenInterest := 0, callOpenInterest := 0,
         putCallOIRatio := 0, totalVolume := 3, totalOpenInterest := 0 },
       { expirationDate := "03/21/2025", putVolume := 3, callVolume := 1,
         putCallVolumeRatio := 3, putOpenInterest := 0, callOpenInterest := 0,
         putCallOIRatio := 0, totalVolume := 4, totalOpenInterest := 0 }]).keyInsights
      = ["Put/call volume ratio of 1.00 suggests neutral sentiment",
         "Put/call ratios are decreasing across recent expiration dates"] := by
  constructor
  · decide
  · with_unfolding_all decide

/-- Witness for the amended C7 at ratios 3 > 2 > 1 (the "increasing" case). -/
theorem C7_witness :
    ([{ expirationDate := "01/17/2025", putVolume := 3, callVolume := 1,
        putCallVolumeRatio := 3, putOpenInterest := 0, callOpenInterest := 0,
        putCallOIRatio := 0, totalVolume := 4, totalOpenInterest := 0 },
      { expirationDate := "02/21/2025", putVolume := 2, callVolume := 1,
        putCallVolumeRatio := 2, putOpenInterest := 0, callOpenInterest := 0,
        putCallOIRatio := 0, totalVolume := 3, totalOpenInterest := 0 },
      { expirationDate := "03/21/2025", putVolume := 1, callVolume := 1,
        putCallVolumeRatio := 1, putOpenInterest := 0, callOpenInterest := 0,
        putCallOIRatio := 0, totalVolume := 2, totalOpenInterest := 0 }] :
      List PutCallRatioData).length ≥ 3 ∧
    trendInsightList
      [{ expirationDate := "01/17/2025", putVolume := 3, callVolume := 1,
         putCallVolumeRatio := 3, putOpenInterest := 0, callOpenInterest := 0,
         putCallOIRatio := 0, totalVolume := 4, totalOpenInterest := 0 },
       { expirationDate := "02/21/2025", putVolume := 2, callVolume := 1,
         putCallVolumeRatio := 2, putOpenInterest := 0, callOpenInterest := 0,
         putCallOIRatio := 0, totalVolume := 3, totalOpenInterest := 0 },
       { expirationDate := "03/21/2025", putVolume := 1, callVolume := 1,
         putCallVolumeRatio := 1, putOpenInterest := 0, callOpenInterest := 0,
         putCallOIRatio := 0, totalVolume := 2, totalOpenInterest := 0 }]
      = ["Put/call ratios are increasing across recent expiration dates"] := by
  refine ⟨by decide, ?_⟩
  have h := (C7_trend_insight 1 0
    [{ expirationDate := "01/17/2025", putVolume := 3, callVolume := 1,
       putCallVolumeRatio := 3, putOpenInterest := 0, callOpenInterest := 0,
       putCallOIRatio := 0, totalVolume := 4, totalOpenInterest := 0 },
     { expirationDate := "02/21/2025", putVolume := 2, callVolume := 1,
       putCallVolumeRatio := 2, putOpenInterest := 0, callOpenInterest := 0,
       putCallOIRatio := 0, totalVolume := 3, totalOpenInterest := 0 },
     { expirationDate := "03/21/2025", putVolume := 1, callVolume := 1,
       putCallVolumeRatio := 1, putOpenInterest := 0, callOpenInterest := 0,
       putCallOIRatio := 0, totalVolume := 2, totalOpenInterest := 0 }] (by decide)).2
  rw [h, if_pos (by decide)]

/-! ## Synthetic "Overall" row (C6) -/

/-- Counterexample to C6 as stated: with only a put open-interest total
(500) extracted and no rows, no synthetic "Overall" row is created — the
synthesis condition only looks at volume totals and the volume ratio — so
an analysis with a non-zero total has an empty `ratiosByDate`. -/
theorem C6_counterexample :
    (mkAnalysis "TEST" ⟨0, 0, 0, 500, 0, 0⟩ []).totalPutOI = 500 ∧
    (mkAnalysis "TEST" ⟨0, 0, 0, 500, 0, 0⟩ []).ratiosByDate = [] := by
  constructor
  · set_option maxRecDepth 2000 in with_unfolding_all decide
  · set_option maxRecDepth 2000 in with_unfolding_all decide

/-- Claim C6 (amended): the synthetic "Overall" row is appended exactly when no
per-expiration rows were parsed and a put/call *volume* total (or the
back-filled overall volume ratio) is positive; consequently any analysis
with positive volume totals or volume ratio has at least one row, while
open-interest-only data yields none. -/
theorem C6_synthetic_overall (ticker : String) (t : ExtractedTotals)
    (cells : List (List String)) :
    (rowsFromCells cells = [] →
      (mkAnalysis ticker t cells).ratiosByDate
        = (if t.putVolume > 0 ∨ t.callVolume > 0 ∨ adjVolumeRatio t > 0
           then [syntheticOverallRow t] else [])) ∧
    ((mkAnalysis ticker t cells).totalPutVolume > 0 ∨
     (mkAnalysis ticker t cells).totalCallVolume > 0 ∨
     (mkAnalysis ticker t cells).overallPutCallVolumeRatio > 0 →
      (mkAnalysis ticker t cells).ratiosByDate ≠ []) := by
  have hr : (mkAnalysis ticker t cells).ratiosByDate
      = finalRows t (rowsFromCells cells) := rfl
  have hpv : (mkAnalysis ticker t cells).totalPutVolume
      = (if t.putVolume > 0 then t.putVolume
         else ((finalRows t (rowsFromCells cells)).map fun d => d.putVolume).sum) := rfl
  have hcv : (mkAnalysis ticker t cells).totalCallVolume
      = (if t.callVolume > 0 then t.callVolume
         else ((finalRows t (rowsFromCells cells)).map fun d => d.callVolume).sum) := rfl
  have hov : (mkAnalysis ticker t cells).overallPutCallVolumeRatio
      = (if adjVolumeRatio t > 0 then adjVolumeRatio t
         else if (if t.callVolume > 0 then t.callVolume
                  else ((finalRows t (rowsFromCells cells)).map fun d => d.callVolume).sum) > 0
              then (if t.putVolume > 0 then t.putVolume
                    else ((finalRows t (rowsFromCells cells)).map fun d => d.putVolume).sum) /
                   (if t.callVolume > 0 then t.callVolume
                    else ((finalRows t (rowsFromCells cells)).map fun d => d.callVolume).sum)
              else 0) := rfl
  constructor
  · intro h0
    rw [hr]
    unfold finalRows
    by_cases hp : t.putVolume > 0 ∨ t.callVolume > 0 ∨ adjVolumeRatio t > 0
    · rw [if_pos ⟨h0, hp⟩, if_pos hp]
    · rw [if_neg (fun hc => hp hc.2), if_neg hp, h0]
  · intro hpos hnil
    rw [hr] at hnil
    have hcond : ¬(rowsFromCells cells = [] ∧
        (t.putVolume > 0 ∨ t.callVolume > 0 ∨ adjVolumeRatio t > 0)) := by
      intro hc
      have : finalRows t (rowsFromCells cells) = [syntheticOverallRow t] := by
        unfold finalRows
        rw [if_pos hc]
      rw [this] at hnil
      exact absurd hnil (by simp)
    have h0 : rowsFromCells cells = [] := by
      have : finalRows t (rowsFromCells cells) = rowsFromCells cells := by
        unfold finalRows
        rw [if_neg hcond]
      rw [this] at hnil
      exact hnil
    have hP : ¬(t.putVolume > 0 ∨ t.callVolume > 0 ∨ adjVolumeRatio t > 0) :=
      fun hp => hcond ⟨h0, hp⟩
    push_neg at hP
    obtain ⟨hp1, hp2, hp3⟩ := hP
    have hfr : finalRows t (rowsFromCells cells) = [] := by
      unfold finalRows
      rw [if_neg hcond, h0]
    rcases hpos with h | h | h
    · rw [hpv, if_neg (not_lt.mpr hp1), hfr] at h
      simp at h
    · rw [hcv, if_neg (not_lt.mpr hp2), hfr] at h
      simp at h
    · rw [hov, if_neg (not_lt.mpr hp3), if_neg (not_lt.mpr hp2), hfr] at h
      simp at h

/-- Witness for the amended C6: volume totals present, no parsed rows ⇒
exactly the synthetic "Overall" row. -/
theorem C6_witness :
    rowsFromCells ([] : List (List String)) = [] ∧
    (mkAnalysis "T" ⟨100, 200, 0, 0, 0, 0⟩ []).ratiosByDate
      = [syntheticOverallRow ⟨100, 200, 0, 0, 0, 0⟩] ∧
    (mkAnalysis "T" ⟨100, 200, 0, 0, 0, 0⟩ []).ratiosByDate ≠ [] := by
  have h := C6_synthetic_overall "T" ⟨100, 200, 0, 0, 0, 0⟩ []
  have h1 := h.1 rfl
  rw [if_pos (Or.inl (by norm_num))] at h1
  exact ⟨rfl, h1,
    h.2 (Or.inl (by set_option maxRecDepth 2000 in with_unfolding_all decide))⟩

/-! ## Per-row ratio reconciliation (C3) -/

/-- Counterexample to C3 as stated: a parsed page whose summary totals are
self-consistent but whose one table row carries an explicit ratio cell
`"5.0"` disagreeing with its own volumes (10/10 = 1) produces an analysis
with an off-by-4 row ratio and an empty warnings list — the 0.1
reconciliation is only applied to the overall totals. -/
theorem C3_counterexample :
    (mkAnalysis "AAPL" ⟨100, 100, 1, 100, 100, 1⟩
        [["01/17/2025", "10", "10", "5.0", "10", "10", "1.0"]]).ratiosByDate
      = [{ expirationDate := "01/17/2025", putVolume := 10, callVolume := 10,
           putCallVolumeRatio := 5, putOpenInterest := 10, callOpenInterest := 10,
           putCallOIRatio := 1, totalVolume := 20, totalOpenInterest := 20 }] ∧
    (mkAnalysis "AAPL" ⟨100, 100, 1, 100, 100, 1⟩
        [["01/17/2025", "10", "10", "5.0", "10", "10", "1.0"]]).validationResult.warnings
      = [] ∧
    (1 / 10 : ℚ) < |(5 : ℚ) - 10 / 10| := by
  refine ⟨?_, ?_, by norm_num⟩
  · set_option maxRecDepth 8000 in with_unfolding_all decide
  · set_option maxRecDepth 8000 in with_unfolding_all decide

/-- Claim C3 (amended): a parsed row whose explicit ratio cell parses to 0 gets its
volume ratio computed exactly as `putVolume / callVolume`; a nonzero ratio
cell is kept verbatim with no per-row reconciliation. -/
theorem C3_row_ratio (cells : List String) (row : PutCallRatioData)
    (h : rowFromCells cells = some row) (hcv : 0 < row.callVolume)
    (hz : parseNumber (cells.getD 3 "") = 0) :
    row.putCallVolumeRatio = row.putVolume / row.callVolume := by
  simp only [rowFromCells] at h
  split_ifs at h with h1 h2 h3
  · have hrec := Option.some.inj h
    subst hrec
    show rowVolumeRatio (parseNumber (cells.getD 1 "")) (parseNumber (cells.getD 2 ""))
      (parseNumber (cells.getD 3 "")) = _
    unfold rowVolumeRatio
    rw [if_neg (fun hne => hne hz), if_pos hcv]

/-- Witness for the amended C3: an empty ratio cell with volumes 10/20
yields the computed ratio 1/2. -/
theorem C3_witness :
    rowFromCells ["01/17/2025", "10", "20", "", "10", "10", ""]
      = some { expirationDate := "01/17/2025", putVolume := 10, callVolume := 20,
               putCallVolumeRatio := 1 / 2, putOpenInterest := 10, callOpenInterest := 10,
               putCallOIRatio := 1, totalVolume := 30, totalOpenInterest := 20 } ∧
    parseNumber (["01/17/2025", "10", "20", "", "10", "10", ""].getD 3 "") = 0 ∧
    ({ expirationDate := "01/17/2025", putVolume := 10, callVolume := 20,
       putCallVolumeRatio := 1 / 2, putOpenInterest := 10, callOpenInterest := 10,
       putCallOIRatio := 1, totalVolume := 30, totalOpenInterest := 20 } :
      PutCallRatioData).putCallVolumeRatio = (10 : ℚ) / 20 := by
  have h1 : rowFromCells ["01/17/2025", "10", "20", "", "10", "10", ""]
      = some { expirationDate := "01/17/2025", putVolume := 10, callVolume := 20,
               putCallVolumeRatio := 1 / 2, putOpenInterest := 10, callOpenInterest := 10,
               putCallOIRatio := 1, totalVolume := 30, totalOpenInterest := 20 } := by
    set_option maxRecDepth 8000 in with_unfolding_all decide
  refine ⟨h1, by decide, ?_⟩
  have h2 := C3_row_ratio _ _ h1 (by norm_num) (by decide)
  simpa using h2
